import Mathlib

/-!
Verification development for the stun_forward repository (Go).

The Go sources are shallowly embedded: pure fragments become Lean
functions over `List Char` / `String`, `Nat` and `Int`; fallible Go code
returns `Option`; effectful code (sockets, HTTP) is modelled by explicit
environments supplying the outcomes of the external calls, and by traces
of emitted I/O actions.  Machine integers are modelled by `Int`/`Nat`
(the quantities involved - ports, durations in nanoseconds - stay far
below 2^63, where Go's `int`/`time.Duration` arithmetic agrees with the
unbounded model).
-/

namespace StunForward

/-! ### Go string primitives

`goSplit` models `strings.Split(s, sep)` for a single-character
separator, `goAtoi` models `strconv.Atoi`, `goToLower` models
`strings.ToLower` (ASCII range; all protocol strings involved are
ASCII), and `natChars` produces the decimal digits `strconv.Itoa`
prints for a natural number. -/

/-- Model of Go `strings.Split(s, string(sep))` on character lists:
splits at every occurrence of `sep`, keeping empty fields. -/
def goSplit (sep : Char) : List Char → List (List Char)
  | [] => [[]]
  | c :: cs =>
    let rest := goSplit sep cs
    if c = sep then
      [] :: rest
    else
      match rest with
      | [] => [[c]]
      | f :: fs => (c :: f) :: fs

/-- Decimal digit value of a character, `none` for non-digits
(model of the per-character step of Go `strconv.Atoi`). -/
def charDigit (c : Char) : Option Nat :=
  if '0' ≤ c ∧ c ≤ '9' then some (c.toNat - 48) else none

/-- Accumulating decimal parse of a character list, `none` on the first
non-digit. -/
def digitsValAux (acc : Nat) : List Char → Option Nat
  | [] => some acc
  | c :: cs =>
    match charDigit c with
    | none => none
    | some d => digitsValAux (acc * 10 + d) cs

/-- Digit-run part of `strconv.Atoi`: one or more decimal digits and
nothing else; values outside `int64` fail with `ErrRange`. -/
def goAtoiCore (neg : Bool) (ds : List Char) : Option Int :=
  match ds with
  | [] => none
  | _ :: _ =>
    match digitsValAux 0 ds with
    | none => none
    | some v =>
      if neg then
        if (v : Int) ≤ 2 ^ 63 then some (-(v : Int)) else none
      else
        if (v : Int) < 2 ^ 63 then some (v : Int) else none

/-- Model of Go `strconv.Atoi`: optional single sign, then one or more
decimal digits, no other characters. -/
def goAtoi (s : List Char) : Option Int :=
  match s with
  | [] => none
  | c :: rest =>
    if c = '-' then goAtoiCore true rest
    else if c = '+' then goAtoiCore false rest
    else goAtoiCore false (c :: rest)

/-- ASCII lower-casing of one character (the fragment of Go
`strings.ToLower` exercised by protocol names). -/
def lowerChar (c : Char) : Char :=
  if 'A' ≤ c ∧ c ≤ 'Z' then Char.ofNat (c.toNat + 32) else c

/-- Model of Go `strings.ToLower` on ASCII strings. -/
def goToLower (s : List Char) : List Char := s.map lowerChar

/-- The character Go `strconv.Itoa` prints for a digit `d < 10`. -/
def digChar (d : Nat) : Char := Char.ofNat (48 + d)

/-- Digit expansion used by `natChars`; the first argument is fuel
bounding the recursion depth (any fuel `≥ n` gives the digits of `n`,
most significant first; `n = 0` gives `[]`). -/
def natCharsCore : Nat → Nat → List Char
  | 0, _ => []
  | fuel + 1, n => if n = 0 then [] else natCharsCore fuel (n / 10) ++ [digChar (n % 10)]

/-- Decimal character list printed by Go `strconv.Itoa` for a natural
number (most significant digit first). -/
def natChars (n : Nat) : List Char :=
  if n = 0 then ['0'] else natCharsCore n n

/-- Character list printed by Go `strconv.Itoa` / `%d` for an `int`. -/
def intChars (i : Int) : List Char :=
  if i < 0 then '-' :: natChars i.natAbs else natChars i.natAbs

/-! ### Port mappings

Two distinct parsers exist in the source: `ParsePortMapping` in
`pkg/types/config.go` (validates the port range `1..65535`) and the
method `parseFromString` on `PortMapping` in the main package's
`types.go` (no range validation).  Both are embedded. -/

/-- `PortMapping` record (`pkg/types/config.go` and main `types.go`).
Ports are Go `int`, modelled by `Int`. -/
structure PortMapping where
  Protocol : String
  LocalPort : Int
  RemotePort : Int
  deriving DecidableEq, Repr

/-- Embedding of `types.ParsePortMapping` (`pkg/types/config.go`):
split on `:` into exactly three fields, lower-case the protocol and
require `tcp`/`udp`, parse both ports with `strconv.Atoi` and require
them in `1..65535`.  `none` models the Go error returns. -/
def ParsePortMapping (s : String) : Option PortMapping :=
  match goSplit ':' s.data with
  | [p, l, r] =>
    if goToLower p = "tcp".data ∨ goToLower p = "udp".data then
      match goAtoi l with
      | none => none
      | some localPort =>
        if localPort ≤ 0 ∨ localPort > 65535 then none
        else
          match goAtoi r with
          | none => none
          | some remotePort =>
            if remotePort ≤ 0 ∨ remotePort > 65535 then none
            else
              some { Protocol := String.mk (goToLower p)
                     LocalPort := localPort
                     RemotePort := remotePort }
    else none
  | _ => none

/-- Embedding of `(*PortMapping).String` (`pkg/types/config.go`):
`fmt.Sprintf("%s:%d:%d", protocol, localPort, remotePort)`. -/
def pmString (pm : PortMapping) : String :=
  String.mk (pm.Protocol.data ++ ':' :: intChars pm.LocalPort ++ ':' :: intChars pm.RemotePort)

/-- Embedding of `(*PortMapping).parseFromString` (main package
`types.go`): identical field and protocol checks, `strconv.Atoi` on
both ports, but no port-range validation. -/
def parseFromString (s : String) : Option PortMapping :=
  match goSplit ':' s.data with
  | [p, l, r] =>
    if goToLower p = "tcp".data ∨ goToLower p = "udp".data then
      match goAtoi l, goAtoi r with
      | some localPort, some remotePort =>
        some { Protocol := String.mk (goToLower p)
               LocalPort := localPort
               RemotePort := remotePort }
      | _, _ => none
    else none
  | _ => none

/-- Embedding of `generateMappingKey` (`run.go`): protocol and the two
ports joined with `-`, the smaller port printed first. -/
def generateMappingKey (mapping : PortMapping) : String :=
  let lr : Int × Int :=
    if mapping.LocalPort > mapping.RemotePort then
      (mapping.RemotePort, mapping.LocalPort)
    else
      (mapping.LocalPort, mapping.RemotePort)
  String.mk (mapping.Protocol.data ++ '-' :: intChars lr.1 ++ '-' :: intChars lr.2)


/-! ### Lemmas about the string primitives -/

theorem goSplit_of_not_mem {sep : Char} : ∀ {xs : List Char}, sep ∉ xs → goSplit sep xs = [xs]
  | [], _ => rfl
  | c :: cs, h => by
    have hc : c ≠ sep := fun hcs => h (hcs ▸ List.mem_cons_self c cs)
    have hcs : sep ∉ cs := fun hm => h (List.mem_cons_of_mem c hm)
    simp only [goSplit, if_neg hc, goSplit_of_not_mem hcs]

theorem goSplit_append {sep : Char} :
    ∀ {xs : List Char} (ys : List Char), sep ∉ xs →
      goSplit sep (xs ++ sep :: ys) = xs :: goSplit sep ys
  | [], ys, _ => by simp [goSplit]
  | c :: cs, ys, h => by
    have hc : c ≠ sep := fun hcs => h (hcs ▸ List.mem_cons_self c cs)
    have hcs : sep ∉ cs := fun hm => h (List.mem_cons_of_mem c hm)
    have ih := @goSplit_append sep cs ys hcs
    simp only [List.cons_append, goSplit, if_neg hc, List.append_eq, ih]

theorem charDigit_digChar {d : Nat} (h : d < 10) : charDigit (digChar d) = some d := by
  interval_cases d <;> decide

theorem digChar_ne_special {d : Nat} (h : d < 10) :
    digChar d ≠ ':' ∧ digChar d ≠ '-' ∧ digChar d ≠ '+' := by
  interval_cases d <;> decide

theorem natCharsCore_mem :
    ∀ (fuel n : Nat) (c : Char), c ∈ natCharsCore fuel n → ∃ d, d < 10 ∧ c = digChar d
  | 0, _, _, h => by simp [natCharsCore] at h
  | fuel + 1, n, c, h => by
    by_cases hn : n = 0
    · simp [natCharsCore, hn] at h
    · simp only [natCharsCore, if_neg hn, List.mem_append, List.mem_singleton] at h
      rcases h with h | h
      · exact natCharsCore_mem fuel (n / 10) c h
      · exact ⟨n % 10, Nat.mod_lt _ (by norm_num), h⟩

theorem natChars_mem {n : Nat} {c : Char} (h : c ∈ natChars n) :
    ∃ d, d < 10 ∧ c = digChar d := by
  by_cases hn : n = 0
  · simp [natChars, hn] at h
    exact ⟨0, by norm_num, h⟩
  · simp only [natChars, if_neg hn] at h
    exact natCharsCore_mem n n c h

theorem digitsValAux_append (acc : Nat) (xs ys : List Char) :
    digitsValAux acc (xs ++ ys) =
      match digitsValAux acc xs with
      | none => none
      | some v => digitsValAux v ys := by
  induction xs generalizing acc with
  | nil => simp [digitsValAux]
  | cons c cs ih =>
    simp only [List.cons_append, digitsValAux]
    cases hc : charDigit c with
    | none => rfl
    | some d => exact ih (acc * 10 + d)

theorem digitsValAux_natCharsCore :
    ∀ (fuel n acc : Nat), n ≤ fuel →
      ∃ e, digitsValAux acc (natCharsCore fuel n) = some (acc * 10 ^ e + n)
  | 0, n, acc, h => by
    have : n = 0 := Nat.le_zero.mp h
    exact ⟨0, by simp [natCharsCore, digitsValAux, this]⟩
  | fuel + 1, n, acc, h => by
    by_cases hn : n = 0
    · exact ⟨0, by simp [natCharsCore, digitsValAux, hn]⟩
    · have hdiv : n / 10 ≤ fuel := by
        have h1 : n / 10 < n := Nat.div_lt_self (Nat.pos_of_ne_zero hn) (by norm_num)
        omega
      obtain ⟨e, he⟩ := digitsValAux_natCharsCore fuel (n / 10) acc hdiv
      refine ⟨e + 1, ?_⟩
      simp only [natCharsCore, if_neg hn, digitsValAux_append, he, digitsValAux,
        charDigit_digChar (Nat.mod_lt n (by norm_num : (0:Nat) < 10))]
      congr 1
      have hmod := Nat.div_add_mod n 10
      ring_nf
      omega

theorem digitsValAux_natChars (n : Nat) : digitsValAux 0 (natChars n) = some n := by
  by_cases hn : n = 0
  · simp [natChars, hn, digitsValAux, charDigit]
  · simp only [natChars, if_neg hn]
    obtain ⟨e, he⟩ := digitsValAux_natCharsCore n n 0 le_rfl
    simpa using he

theorem natChars_head :
    ∀ n : Nat, ∃ c cs, natChars n = c :: cs ∧ ∃ d, d < 10 ∧ c = digChar d := by
  intro n
  cases hh : natChars n with
  | nil =>
    by_cases hn : n = 0
    · simp [natChars, hn] at hh
    · exfalso
      obtain ⟨e, he⟩ := digitsValAux_natCharsCore n n 0 le_rfl
      simp only [natChars, if_neg hn] at hh
      rw [hh] at he
      simp [digitsValAux] at he
      omega
  | cons c cs =>
    exact ⟨c, cs, rfl, natChars_mem (hh ▸ List.mem_cons_self c cs)⟩

theorem goAtoi_natChars {n : Nat} (h : (n : Int) < 2 ^ 63) :
    goAtoi (natChars n) = some (n : Int) := by
  obtain ⟨c, cs, hcons, d, hd, hcd⟩ := natChars_head n
  have hne := digChar_ne_special hd
  rw [hcons]
  simp only [goAtoi, if_neg (hcd ▸ hne.2.1), if_neg (hcd ▸ hne.2.2)]
  have hval : digitsValAux 0 (c :: cs) = some n := hcons ▸ digitsValAux_natChars n
  simp only [goAtoiCore, hval]
  simp
  exact_mod_cast h

theorem natChars_not_colon (n : Nat) : ':' ∉ natChars n := by
  intro hmem
  obtain ⟨d, hd, hc⟩ := natChars_mem hmem
  exact (digChar_ne_special hd).1 hc.symm

/-! ### Mapping parser properties (claims C2, C9, C10) -/

/-- The well-formedness condition `ParsePortMapping` enforces
(`pkg/types/config.go`): protocol `tcp`/`udp` (already lower case in
accepted outputs) and both ports in `1..65535`. -/
def validMapping (m : PortMapping) : Prop :=
  (m.Protocol = "tcp" ∨ m.Protocol = "udp") ∧
    0 < m.LocalPort ∧ m.LocalPort ≤ 65535 ∧
    0 < m.RemotePort ∧ m.RemotePort ≤ 65535

instance (m : PortMapping) : Decidable (validMapping m) := by
  unfold validMapping; infer_instance

theorem pmString_data (pm : PortMapping) :
    (pmString pm).data =
      pm.Protocol.data ++ ':' :: intChars pm.LocalPort ++ ':' :: intChars pm.RemotePort := rfl

theorem intChars_of_pos {i : Int} (h : 0 < i) : intChars i = natChars i.natAbs := by
  unfold intChars
  rw [if_neg (by omega)]

theorem goSplit_pmString {m : PortMapping} (hp : ':' ∉ m.Protocol.data)
    (hl : 0 < m.LocalPort) (hr : 0 < m.RemotePort) :
    goSplit ':' (pmString m).data =
      [m.Protocol.data, natChars m.LocalPort.natAbs, natChars m.RemotePort.natAbs] := by
  rw [pmString_data, intChars_of_pos hl, intChars_of_pos hr, List.append_assoc,
    List.cons_append, goSplit_append _ hp, goSplit_append _ (natChars_not_colon _),
    goSplit_of_not_mem (natChars_not_colon _)]

theorem natAbs_lt_two_pow_63 {i : Int} (h0 : 0 < i) (h1 : i ≤ 65535) :
    ((i.natAbs : Nat) : Int) < 2 ^ 63 := by
  rw [Int.natAbs_of_nonneg (le_of_lt h0)]
  have : (65535 : Int) < 2 ^ 63 := by norm_num
  omega

theorem ParsePortMapping_pmString {m : PortMapping} (hm : validMapping m) :
    ParsePortMapping (pmString m) = some m := by
  obtain ⟨proto, l, r⟩ := m
  obtain ⟨hp, hl0, hl1, hr0, hr1⟩ := hm
  simp only at hp hl0 hl1 hr0 hr1
  have hlc : ((l.natAbs : Nat) : Int) = l := Int.natAbs_of_nonneg (le_of_lt hl0)
  have hrc : ((r.natAbs : Nat) : Int) = r := Int.natAbs_of_nonneg (le_of_lt hr0)
  rcases hp with hp | hp <;> subst hp
  · have hsplit := @goSplit_pmString ⟨"tcp", l, r⟩
      (show ':' ∉ ("tcp" : String).data by decide) hl0 hr0
    simp only [ParsePortMapping, hsplit,
      goAtoi_natChars (natAbs_lt_two_pow_63 hl0 hl1),
      goAtoi_natChars (natAbs_lt_two_pow_63 hr0 hr1), hlc, hrc]
    rw [if_pos (Or.inl (show goToLower ("tcp" : String).data = ("tcp" : String).data by decide)),
      if_neg (by omega), if_neg (by omega)]
    simp only [show String.mk (goToLower ("tcp" : String).data) = "tcp" from by decide]
  · have hsplit := @goSplit_pmString ⟨"udp", l, r⟩
      (show ':' ∉ ("udp" : String).data by decide) hl0 hr0
    simp only [ParsePortMapping, hsplit,
      goAtoi_natChars (natAbs_lt_two_pow_63 hl0 hl1),
      goAtoi_natChars (natAbs_lt_two_pow_63 hr0 hr1), hlc, hrc]
    rw [if_pos (Or.inr (show goToLower ("udp" : String).data = ("udp" : String).data by decide)),
      if_neg (by omega), if_neg (by omega)]
    simp only [show String.mk (goToLower ("udp" : String).data) = "udp" from by decide]

theorem ParsePortMapping_sound {s : String} {m : PortMapping}
    (h : ParsePortMapping s = some m) : validMapping m := by
  unfold ParsePortMapping at h
  split at h
  · rename_i p l r heq
    cases hl : goAtoi l with
    | none =>
      rw [hl] at h
      split at h <;> simp at h
    | some lv =>
      rw [hl] at h
      cases hr : goAtoi r with
      | none =>
        rw [hr] at h
        split at h <;> simp at h
      | some rv =>
        rw [hr] at h
        split at h
        · rename_i hc
          simp only at h
          split at h
          · simp at h
          · split at h
            · simp at h
            · rename_i hlr hrr
              injection h with h
              subst h
              refine ⟨show String.mk (goToLower p) = "tcp" ∨ String.mk (goToLower p) = "udp"
                  from ?_,
                show 0 < lv by omega, show lv ≤ 65535 by omega,
                show 0 < rv by omega, show rv ≤ 65535 by omega⟩
              rcases hc with hc | hc <;> rw [hc]
              · exact Or.inl rfl
              · exact Or.inr rfl
        · simp at h
  · simp at h

theorem parseFromString_eval {s : String} {p l r : List Char} {lv rv : Int}
    (hsp : goSplit ':' s.data = [p, l, r])
    (hproto : goToLower p = "tcp".data ∨ goToLower p = "udp".data)
    (hl : goAtoi l = some lv) (hr : goAtoi r = some rv) :
    parseFromString s = some ⟨String.mk (goToLower p), lv, rv⟩ := by
  unfold parseFromString
  rw [hsp]
  simp only [if_pos hproto, hl, hr]

/-- Claim C2: parsing `"tcp:5001:5000"` yields `(tcp, 5001, 5000)` and
serializing that mapping yields the string back; serializing any valid
mapping and re-parsing is the identity; accepted mappings always have a
`tcp`/`udp` protocol and ports in `1..65535` (so unknown protocols,
out-of-range ports and wrong field counts are rejected), as witnessed
on `"xyz:5001:5000"`, `"tcp:0:5000"`, `"tcp:5001:70000"` and
`"tcp:5001"`.  The blanket claim that parse-then-serialize restores
*every* accepted input string fails (see the counterexample), so the
round trip holds in the serialize-then-parse direction and on
canonically written strings. -/
theorem C2_mapping_parse_round_trip :
    (ParsePortMapping "tcp:5001:5000" =
        some { Protocol := "tcp", LocalPort := 5001, RemotePort := 5000 } ∧
      pmString { Protocol := "tcp", LocalPort := 5001, RemotePort := 5000 } =
        "tcp:5001:5000") ∧
    (∀ m : PortMapping, validMapping m → ParsePortMapping (pmString m) = some m) ∧
    (∀ (s : String) (m : PortMapping), ParsePortMapping s = some m → validMapping m) ∧
    (ParsePortMapping "xyz:5001:5000" = none ∧ ParsePortMapping "tcp:0:5000" = none ∧
      ParsePortMapping "tcp:5001:70000" = none ∧ ParsePortMapping "tcp:5001" = none) :=
  ⟨⟨by decide, by decide⟩,
    fun _ hm => ParsePortMapping_pmString hm,
    fun _ _ h => ParsePortMapping_sound h,
    ⟨by decide, by decide, by decide, by decide⟩⟩

/-- Claim C2, witness: the universally quantified parts of
`C2_mapping_parse_round_trip` applied at the concrete mapping
`(udp, 1, 65535)` and the concrete string `"udp:1:65535"`. -/
theorem C2_mapping_parse_round_trip_witness :
    (validMapping { Protocol := "udp", LocalPort := 1, RemotePort := 65535 } ∧
      ParsePortMapping (pmString { Protocol := "udp", LocalPort := 1, RemotePort := 65535 }) =
        some { Protocol := "udp", LocalPort := 1, RemotePort := 65535 }) ∧
    validMapping { Protocol := "udp", LocalPort := 1, RemotePort := 65535 } :=
  ⟨⟨by decide, C2_mapping_parse_round_trip.2.1 _ (by decide)⟩,
    C2_mapping_parse_round_trip.2.2.1 "udp:1:65535" _ (by decide)⟩

/-- Claim C2, counterexample to the blanket round trip: the string
`"tcp:05001:5000"` (a leading zero in the local port) is accepted by
`ParsePortMapping`, but serializing the resulting mapping yields
`"tcp:5001:5000"`, not the original string. -/
theorem C2_mapping_parse_round_trip_counterexample :
    ParsePortMapping "tcp:05001:5000" =
        some { Protocol := "tcp", LocalPort := 5001, RemotePort := 5000 } ∧
      pmString { Protocol := "tcp", LocalPort := 5001, RemotePort := 5000 } ≠
        "tcp:05001:5000" := by
  exact ⟨by decide, by decide⟩

/-- Claim C9: the main-package parser `parseFromString` performs no
port-range validation: every input splitting into exactly three
`:`-separated fields whose lower-cased protocol is `tcp` or `udp` and
whose two port fields are accepted by `strconv.Atoi` parses
successfully, and in particular `"tcp:0:99999"` yields the mapping
`(tcp, 0, 99999)`. -/
theorem C9_parseFromString_no_range_check :
    (∀ (s : String) (p l r : List Char) (lv rv : Int),
        goSplit ':' s.data = [p, l, r] →
        (goToLower p = "tcp".data ∨ goToLower p = "udp".data) →
        goAtoi l = some lv → goAtoi r = some rv →
        parseFromString s = some ⟨String.mk (goToLower p), lv, rv⟩) ∧
      parseFromString "tcp:0:99999" =
        some { Protocol := "tcp", LocalPort := 0, RemotePort := 99999 } :=
  ⟨fun _ _ _ _ _ _ hsp hproto hl hr => parseFromString_eval hsp hproto hl hr, by decide⟩

/-- Claim C9, witness: the universal part of
`C9_parseFromString_no_range_check` applied to the concrete
out-of-range input `"tcp:0:99999"`. -/
theorem C9_parseFromString_no_range_check_witness :
    parseFromString "tcp:0:99999" =
      some { Protocol := String.mk (goToLower "tcp".data), LocalPort := 0,
             RemotePort := 99999 } :=
  C9_parseFromString_no_range_check.1 "tcp:0:99999" "tcp".data "0".data "99999".data 0 99999
    (by decide) (by decide) (by decide) (by decide)

/-- Claim C10: `generateMappingKey` is invariant under exchanging
`LocalPort` and `RemotePort`, and the key always lists the smaller of
the two ports first (protocol, then `min`, then `max`, joined by
`-`). -/
theorem C10_generateMappingKey_order_invariant :
    ∀ m : PortMapping,
      generateMappingKey
          { Protocol := m.Protocol, LocalPort := m.RemotePort, RemotePort := m.LocalPort } =
        generateMappingKey m ∧
      generateMappingKey m =
        String.mk (m.Protocol.data ++ '-' :: intChars (min m.LocalPort m.RemotePort) ++
          '-' :: intChars (max m.LocalPort m.RemotePort)) := by
  rintro ⟨p, l, r⟩
  by_cases hlr : l > r
  · simp only [generateMappingKey, if_pos hlr, if_neg (show ¬ r > l by omega),
      min_eq_right (show r ≤ l by omega), max_eq_left (show r ≤ l by omega)]
    exact ⟨trivial, trivial⟩
  · by_cases hrl : r > l
    · simp only [generateMappingKey, if_pos hrl, if_neg hlr,
        min_eq_left (show l ≤ r by omega), max_eq_right (show l ≤ r by omega)]
      exact ⟨trivial, trivial⟩
    · have he : l = r := by omega
      subst he
      simp only [generateMappingKey, if_neg hlr, min_self, max_self]
      exact ⟨trivial, trivial⟩

/-! ### LAN detection (claim C6)

Embedding of `detectLANConnection` / `isLANAddress` / `isPrivateIP` /
`extractIP` from `run.go`.  IP addresses are modelled for IPv4
dotted-quad literals (the only shapes the RFC1918 logic can accept:
`net.ParseIP` output for anything else falls outside all three private
CIDR ranges, which the model reflects by returning `none`). -/

/-- An IPv4 address as four octets. -/
structure IPv4 where
  o1 : Nat
  o2 : Nat
  o3 : Nat
  o4 : Nat
  deriving DecidableEq, Repr

/-- One dotted-quad field as accepted by Go `net.ParseIP`: one to three
decimal digits, no leading zero (except `0` itself), value `≤ 255`. -/
def parseIPv4Field (cs : List Char) : Option Nat :=
  match cs with
  | [] => none
  | c :: rest =>
    match digitsValAux 0 (c :: rest) with
    | none => none
    | some v =>
      if c = '0' ∧ rest ≠ [] then none
      else if v ≤ 255 then some v else none

/-- Model of Go `net.ParseIP` restricted to IPv4 dotted-quad notation;
anything else (including IPv6 literals) yields `none`, which the
callers treat exactly as Go treats a non-RFC1918 result. -/
def parseIPv4 (s : List Char) : Option IPv4 :=
  match goSplit '.' s with
  | [a, b, c, d] =>
    match parseIPv4Field a, parseIPv4Field b, parseIPv4Field c, parseIPv4Field d with
    | some x1, some x2, some x3, some x4 => some ⟨x1, x2, x3, x4⟩
    | _, _, _, _ => none
  | _ => none

/-- Model of Go `net.SplitHostPort` for bracket-free addresses: exactly
one colon splits host from port. -/
def splitHostPort (s : List Char) : Option (List Char × List Char) :=
  match goSplit ':' s with
  | [h, p] => if '[' ∈ s ∨ ']' ∈ s then none else some (h, p)
  | _ => none

/-- Embedding of `extractIP` (`run.go`): the host part when
`net.SplitHostPort` succeeds, otherwise the input unchanged. -/
def extractIP (addr : String) : String :=
  match splitHostPort addr.data with
  | some (h, _) => String.mk h
  | none => addr

/-- Membership in `10.0.0.0/8` (`isIn10Range`, `run.go`). -/
def in10Range (ip : IPv4) : Bool := ip.o1 = 10

/-- Membership in `172.16.0.0/12` (`isIn172Range`, `run.go`). -/
def in172Range (ip : IPv4) : Bool := ip.o1 = 172 && ip.o2 / 16 = 1

/-- Membership in `192.168.0.0/16` (`isIn192168Range`, `run.go`). -/
def in192168Range (ip : IPv4) : Bool := ip.o1 = 192 && ip.o2 = 168

/-- Embedding of `isPrivateIP` (`run.go`): membership in one of the
three RFC1918 CIDR ranges. -/
def isPrivateIP (ip : IPv4) : Bool :=
  in10Range ip || in172Range ip || in192168Range ip

/-- Equality under a `/24` mask (`ip.Mask(net.CIDRMask(24, 32))`). -/
def sameMask24 (a b : IPv4) : Bool := a.o1 = b.o1 && a.o2 = b.o2 && a.o3 = b.o3

/-- Equality under a `/16` mask. -/
def sameMask16 (a b : IPv4) : Bool := a.o1 = b.o1 && a.o2 = b.o2

/-- Equality under a `/8` mask. -/
def sameMask8 (a b : IPv4) : Bool := a.o1 = b.o1

/-- Equality under a `/12` mask (first octet plus high nibble of the
second). -/
def sameMask12 (a b : IPv4) : Bool := a.o1 = b.o1 && a.o2 / 16 = b.o2 / 16

/-- Embedding of `isLANAddress` (`run.go`): both addresses must parse
and be RFC1918-private, then the four subnet strategies are tried in
order (`/24`, `/16` inside 192.168/16, `/8` inside 10/8, `/12` inside
172.16/12). -/
def isLANAddress (addr1 addr2 : String) : Bool :=
  match parseIPv4 (extractIP addr1).data, parseIPv4 (extractIP addr2).data with
  | some ip1, some ip2 =>
    if !(isPrivateIP ip1 && isPrivateIP ip2) then false
    else if sameMask24 ip1 ip2 then true
    else if in192168Range ip1 && in192168Range ip2 && sameMask16 ip1 ip2 then true
    else if in10Range ip1 && in10Range ip2 && sameMask8 ip1 ip2 then true
    else if in172Range ip1 && in172Range ip2 && sameMask12 ip1 ip2 then true
    else false
  | _, _ => false

/-- The `NetworkInfo` fields consumed by `detectLANConnection`
(`run.go`). -/
structure NetworkInfo where
  PublicAddr : String
  PrivateAddr : String
  deriving DecidableEq, Repr

/-- Embedding of `detectLANConnection` (`run.go`): strategy 1 compares
public IPs when both are non-empty, strategy 2 runs the private-subnet
analysis when both private addresses are non-empty. -/
def detectLANConnection (clientInfo serverInfo : NetworkInfo) : Bool :=
  if clientInfo.PublicAddr ≠ "" ∧ serverInfo.PublicAddr ≠ "" ∧
      extractIP clientInfo.PublicAddr = extractIP serverInfo.PublicAddr then
    true
  else if clientInfo.PrivateAddr ≠ "" ∧ serverInfo.PrivateAddr ≠ "" ∧
      isLANAddress clientInfo.PrivateAddr serverInfo.PrivateAddr = true then
    true
  else false

/-- The LAN condition as the specification words it: either both sides
report (non-empty) public IPs that are equal, or both private IPs are
RFC1918 addresses sharing a subnet under one of the listed masks. -/
def lanSpec (clientInfo serverInfo : NetworkInfo) : Prop :=
  (clientInfo.PublicAddr ≠ "" ∧ serverInfo.PublicAddr ≠ "" ∧
    extractIP clientInfo.PublicAddr = extractIP serverInfo.PublicAddr) ∨
  (∃ ip1 ip2,
    parseIPv4 (extractIP clientInfo.PrivateAddr).data = some ip1 ∧
    parseIPv4 (extractIP serverInfo.PrivateAddr).data = some ip2 ∧
    isPrivateIP ip1 = true ∧ isPrivateIP ip2 = true ∧
    (sameMask24 ip1 ip2 = true ∨
      (in192168Range ip1 = true ∧ in192168Range ip2 = true ∧ sameMask16 ip1 ip2 = true) ∨
      (in10Range ip1 = true ∧ in10Range ip2 = true ∧ sameMask8 ip1 ip2 = true) ∨
      (in172Range ip1 = true ∧ in172Range ip2 = true ∧ sameMask12 ip1 ip2 = true)))

theorem isLANAddress_iff {a1 a2 : String} :
    isLANAddress a1 a2 = true ↔
      ∃ ip1 ip2,
        parseIPv4 (extractIP a1).data = some ip1 ∧
        parseIPv4 (extractIP a2).data = some ip2 ∧
        isPrivateIP ip1 = true ∧ isPrivateIP ip2 = true ∧
        (sameMask24 ip1 ip2 = true ∨
          (in192168Range ip1 = true ∧ in192168Range ip2 = true ∧ sameMask16 ip1 ip2 = true) ∨
          (in10Range ip1 = true ∧ in10Range ip2 = true ∧ sameMask8 ip1 ip2 = true) ∨
          (in172Range ip1 = true ∧ in172Range ip2 = true ∧ sameMask12 ip1 ip2 = true)) := by
  unfold isLANAddress
  cases h1 : parseIPv4 (extractIP a1).data with
  | none => simp [h1]
  | some ip1 =>
    cases h2 : parseIPv4 (extractIP a2).data with
    | none => simp [h1, h2]
    | some ip2 =>
      simp only [h1, h2]
      constructor
      · intro h
        refine ⟨ip1, ip2, rfl, rfl, ?_⟩
        by_cases hp : (isPrivateIP ip1 && isPrivateIP ip2) = true
        · rw [if_neg (by simp [hp])] at h
          simp only [Bool.and_eq_true] at hp
          refine ⟨hp.1, hp.2, ?_⟩
          by_cases h24 : sameMask24 ip1 ip2 = true
          · exact Or.inl h24
          · rw [if_neg h24] at h
            by_cases h192 :
                (in192168Range ip1 && in192168Range ip2 && sameMask16 ip1 ip2) = true
            · simp only [Bool.and_eq_true] at h192
              exact Or.inr (Or.inl ⟨h192.1.1, h192.1.2, h192.2⟩)
            · rw [if_neg h192] at h
              by_cases h10 : (in10Range ip1 && in10Range ip2 && sameMask8 ip1 ip2) = true
              · simp only [Bool.and_eq_true] at h10
                exact Or.inr (Or.inr (Or.inl ⟨h10.1.1, h10.1.2, h10.2⟩))
              · rw [if_neg h10] at h
                by_cases h172 :
                    (in172Range ip1 && in172Range ip2 && sameMask12 ip1 ip2) = true
                · simp only [Bool.and_eq_true] at h172
                  exact Or.inr (Or.inr (Or.inr ⟨h172.1.1, h172.1.2, h172.2⟩))
                · rw [if_neg h172] at h
                  exact absurd h (by simp)
        · rw [if_pos (by simp [Bool.eq_false_iff.mpr hp])] at h
          exact absurd h (by simp)
      · rintro ⟨ip1w, ip2w, hip1, hip2, hpriv1, hpriv2, hsub⟩
        injection hip1 with hip1
        injection hip2 with hip2
        subst hip1
        subst hip2
        rw [if_neg (by simp [hpriv1, hpriv2])]
        rcases hsub with h24 | ⟨g1, g2, g3⟩ | ⟨g1, g2, g3⟩ | ⟨g1, g2, g3⟩
        · rw [if_pos h24]
        all_goals
          by_cases h24 : sameMask24 ip1 ip2 = true
        · rw [if_pos h24]
        · rw [if_neg h24, if_pos (by simp [g1, g2, g3])]
        · rw [if_pos h24]
        · rw [if_neg h24]
          by_cases h192 :
              (in192168Range ip1 && in192168Range ip2 && sameMask16 ip1 ip2) = true
          · rw [if_pos h192]
          · rw [if_neg h192, if_pos (by simp [g1, g2, g3])]
        · rw [if_pos h24]
        · rw [if_neg h24]
          by_cases h192 :
              (in192168Range ip1 && in192168Range ip2 && sameMask16 ip1 ip2) = true
          · rw [if_pos h192]
          · rw [if_neg h192]
            by_cases h10 : (in10Range ip1 && in10Range ip2 && sameMask8 ip1 ip2) = true
            · rw [if_pos h10]
            · rw [if_neg h10, if_pos (by simp [g1, g2, g3])]

/-- Claim C6: `detectLANConnection` returns true exactly when either
both (non-empty) public IPs are equal or both private IPs are RFC1918
addresses sharing a subnet under the listed masks; concretely it is
true for privates `192.168.1.10` / `192.168.1.20`, false for
`10.0.0.1` / `192.168.1.1`, and true when both sides report public IP
`203.0.113.5`. -/
theorem C6_detectLANConnection_characterization :
    detectLANConnection { PublicAddr := "", PrivateAddr := "192.168.1.10" }
        { PublicAddr := "", PrivateAddr := "192.168.1.20" } = true ∧
    detectLANConnection { PublicAddr := "", PrivateAddr := "10.0.0.1" }
        { PublicAddr := "", PrivateAddr := "192.168.1.1" } = false ∧
    detectLANConnection { PublicAddr := "203.0.113.5", PrivateAddr := "" }
        { PublicAddr := "203.0.113.5", PrivateAddr := "" } = true ∧
    ∀ clientInfo serverInfo : NetworkInfo,
      detectLANConnection clientInfo serverInfo = true ↔ lanSpec clientInfo serverInfo := by
  refine ⟨by decide, by decide, by decide, ?_⟩
  intro c s
  unfold detectLANConnection lanSpec
  by_cases hpub : c.PublicAddr ≠ "" ∧ s.PublicAddr ≠ "" ∧
      extractIP c.PublicAddr = extractIP s.PublicAddr
  · rw [if_pos hpub]
    exact iff_of_true rfl (Or.inl hpub)
  · rw [if_neg hpub]
    by_cases hpriv : c.PrivateAddr ≠ "" ∧ s.PrivateAddr ≠ "" ∧
        isLANAddress c.PrivateAddr s.PrivateAddr = true
    · rw [if_pos hpriv]
      exact iff_of_true rfl (Or.inr (isLANAddress_iff.mp hpriv.2.2))
    · rw [if_neg hpriv]
      refine iff_of_false (by simp) ?_
      rintro (h | h)
      · exact hpub h
      · refine hpriv ⟨?_, ?_, isLANAddress_iff.mpr h⟩
        · obtain ⟨ip1, ip2, hip1, _, _⟩ := h
          intro he
          rw [he, show parseIPv4 (extractIP "").data = (none : Option IPv4) from by decide]
            at hip1
          exact Option.noConfusion hip1
        · obtain ⟨ip1, ip2, _, hip2, _⟩ := h
          intro he
          rw [he, show parseIPv4 (extractIP "").data = (none : Option IPv4) from by decide]
            at hip2
          exact Option.noConfusion hip2

/-! ### NAT discovery (claim C3)

Embedding of `discoverNATType` (`signaling.go`).  The network calls
(the local-address dial, the two bindings against the primary STUN
server and the binding against the secondary server) are supplied by an
environment; `none` models the corresponding Go error. -/

/-- Embedding of `extractPort` (`signaling.go`): the port part when
`net.SplitHostPort` succeeds, otherwise the empty string. -/
def extractPort (addr : String) : String :=
  match splitHostPort addr.data with
  | some (_, p) => String.mk p
  | none => ""

/-- The `NATType` enumeration (`signaling.go`). -/
inductive NATType where
  | unknown
  | noNAT
  | fullCone
  | restrictedCone
  | portRestricted
  | symmetric
  deriving DecidableEq, Repr

/-- The `STUNResult` record (`signaling.go`). -/
structure STUNResult where
  PublicAddr : String
  LocalAddr : String
  NATKind : NATType
  Mappings : List String
  CanHolePunch : Bool
  deriving DecidableEq, Repr

/-- Outcomes of the four external calls `discoverNATType` makes, in
program order: the `net.Dial` used to learn the local address, the
first binding to the primary server, the second binding from the same
local endpoint, and the binding to the secondary server.  `none` is the
corresponding error return. -/
structure NATProbeEnv where
  localDial : Option String
  primaryBinding : Option String
  sameLocalPortBinding : Option String
  secondaryBinding : Option String

/-- Steps 4-5 of `discoverNATType`: the secondary-server cone test and
the restricted-cone default. -/
def discoverNATTypeTail (primarySTUN secondarySTUN : String) (env : NATProbeEnv)
    (localAddr mapping1 : String) (mappings : List String) : STUNResult :=
  if secondarySTUN ≠ "" ∧ secondarySTUN ≠ primarySTUN then
    match env.secondaryBinding with
    | some mapping3 =>
      if extractPort mapping1 = extractPort mapping3 then
        { PublicAddr := mapping1, LocalAddr := localAddr, NATKind := .fullCone
          Mappings := mappings ++ [mapping3], CanHolePunch := true }
      else
        { PublicAddr := mapping1, LocalAddr := localAddr, NATKind := .restrictedCone
          Mappings := mappings ++ [mapping3], CanHolePunch := true }
    | none =>
      { PublicAddr := mapping1, LocalAddr := localAddr, NATKind := .restrictedCone
        Mappings := mappings, CanHolePunch := true }
  else
    { PublicAddr := mapping1, LocalAddr := localAddr, NATKind := .restrictedCone
      Mappings := mappings, CanHolePunch := true }

/-- Embedding of `discoverNATType` (`signaling.go`): learn the local
address, take the first binding, return `noNAT` when local and public
IPs agree, classify `symmetric` when a second binding from the same
local endpoint reflects a different endpoint, otherwise fall through to
the cone tests. -/
def discoverNATType (primarySTUN secondarySTUN : String) (env : NATProbeEnv) :
    Option STUNResult :=
  match env.localDial with
  | none => none
  | some localAddr =>
    match env.primaryBinding with
    | none => none
    | some mapping1 =>
      if extractIP localAddr = extractIP mapping1 then
        some { PublicAddr := mapping1, LocalAddr := localAddr, NATKind := .noNAT
               Mappings := [mapping1], CanHolePunch := true }
      else
        match env.sameLocalPortBinding with
        | some mapping2 =>
          if mapping1 ≠ mapping2 then
            some { PublicAddr := mapping1, LocalAddr := localAddr, NATKind := .symmetric
                   Mappings := [mapping1, mapping2], CanHolePunch := false }
          else
            some (discoverNATTypeTail primarySTUN secondarySTUN env localAddr mapping1
              [mapping1, mapping2])
        | none =>
          some (discoverNATTypeTail primarySTUN secondarySTUN env localAddr mapping1
            [mapping1])

theorem discoverNATTypeTail_not_symmetric (primarySTUN secondarySTUN : String)
    (env : NATProbeEnv) (localAddr mapping1 : String) (mappings : List String) :
    (discoverNATTypeTail primarySTUN secondarySTUN env localAddr mapping1 mappings).NATKind ≠
      NATType.symmetric := by
  unfold discoverNATTypeTail
  split
  · cases env.secondaryBinding with
    | none => simp
    | some mapping3 =>
      by_cases hp : extractPort mapping1 = extractPort mapping3
      · simp [hp]
      · simp [hp]
  · simp

/-- Claim C3: whenever the two consecutive bindings from the same local
endpoint reflect equal public endpoints, the classification is never
`Symmetric`; whenever the second reflected endpoint differs from the
first (which presupposes the probe got past the no-NAT early return),
the classification is `Symmetric` with `CanHolePunch = false`. -/
theorem C3_nat_classification :
    (∀ (primarySTUN secondarySTUN : String) (env : NATProbeEnv) (r : STUNResult)
        (m : String),
        env.primaryBinding = some m → env.sameLocalPortBinding = some m →
        discoverNATType primarySTUN secondarySTUN env = some r →
        r.NATKind ≠ NATType.symmetric) ∧
    (∀ (primarySTUN secondarySTUN : String) (env : NATProbeEnv)
        (localAddr m1 m2 : String),
        env.localDial = some localAddr → env.primaryBinding = some m1 →
        extractIP localAddr ≠ extractIP m1 →
        env.sameLocalPortBinding = some m2 → m2 ≠ m1 →
        ∃ r, discoverNATType primarySTUN secondarySTUN env = some r ∧
          r.NATKind = NATType.symmetric ∧ r.CanHolePunch = false) := by
  constructor
  · intro primarySTUN secondarySTUN env r m hprim hsame hdisc
    unfold discoverNATType at hdisc
    cases hld : env.localDial with
    | none => rw [hld] at hdisc; exact Option.noConfusion hdisc
    | some localAddr =>
      rw [hld, hprim] at hdisc
      dsimp only at hdisc
      by_cases hno : extractIP localAddr = extractIP m
      · rw [if_pos hno] at hdisc
        injection hdisc with hdisc
        subst hdisc
        simp
      · rw [if_neg hno, hsame] at hdisc
        dsimp only at hdisc
        rw [if_neg (show ¬ m ≠ m by simp)] at hdisc
        injection hdisc with hdisc
        subst hdisc
        exact discoverNATTypeTail_not_symmetric _ _ _ _ _ _
  · intro primarySTUN secondarySTUN env localAddr m1 m2 hld hprim hnot hsame hne
    refine ⟨{ PublicAddr := m1, LocalAddr := localAddr, NATKind := .symmetric
              Mappings := [m1, m2], CanHolePunch := false }, ?_, rfl, rfl⟩
    unfold discoverNATType
    rw [hld, hprim]
    dsimp only
    rw [if_neg hnot, hsame]
    dsimp only
    rw [if_pos (show m1 ≠ m2 from fun he => hne he.symm)]

/-- Claim C3, witness: both parts of `C3_nat_classification` applied at
concrete probe environments (equal bindings `2.3.4.5:1000`, and a
differing second binding `2.3.4.5:1001`). -/
theorem C3_nat_classification_witness :
    (∀ r : STUNResult,
      discoverNATType "stun.a:3478" "stun.b:3478"
          { localDial := some "192.168.1.2:40000", primaryBinding := some "2.3.4.5:1000",
            sameLocalPortBinding := some "2.3.4.5:1000", secondaryBinding := none } =
        some r → r.NATKind ≠ NATType.symmetric) ∧
    (∃ r, discoverNATType "stun.a:3478" "stun.b:3478"
          { localDial := some "192.168.1.2:40000", primaryBinding := some "2.3.4.5:1000",
            sameLocalPortBinding := some "2.3.4.5:1001", secondaryBinding := none } =
        some r ∧ r.NATKind = NATType.symmetric ∧ r.CanHolePunch = false) :=
  ⟨fun r h => C3_nat_classification.1 "stun.a:3478" "stun.b:3478" _ r "2.3.4.5:1000"
      rfl rfl h,
    C3_nat_classification.2 "stun.a:3478" "stun.b:3478" _ "192.168.1.2:40000"
      "2.3.4.5:1000" "2.3.4.5:1001" rfl rfl (by decide) rfl (by decide)⟩

/-! ### Signaling fetch with backoff (claim C5)

Embedding of `(*SignalingClient).WaitForPeerData` (`signaling.go`).
Time is in nanoseconds (`time.Duration` units).  The environment is the
list of outcomes of the successive HTTP polls, each with the wall-clock
time the request itself consumed.  Go grows the backoff through
`time.Duration(float64(backoff) * 1.5)` (respectively `* 1.2`); on all
states reachable from the 500 ms initial backoff the float64 product
truncates to the same integer as exact rational arithmetic (the exact
products are at least 0.2 ns away from the next integer, far beyond the
sub-nanosecond float64 rounding error), so the model uses
`backoff * 15 / 10` and `backoff * 12 / 10` on `Nat`. -/

/-- Outcome of one poll of the signaling endpoint, in the order the Go
code distinguishes them: a transport error from `client.Get`, a 200
whose body read fails, a 200 with an empty body or any non-200 status,
or a 200 with a non-empty payload. -/
inductive PollOutcome where
  | transportErr
  | readErr
  | emptyOrNon200
  | payload (s : String)
  deriving DecidableEq, Repr

/-- Which branch put the loop to sleep (for the sleep log). -/
inductive SleepKind where
  | transport
  | readFail
  | empty
  deriving DecidableEq, Repr

/-- One sleep performed by the polling loop: the 1-based attempt
counter, the branch, the backoff in force when the sleep happened and
the actual wait duration. -/
structure SleepEvent where
  attempt : Nat
  kind : SleepKind
  backoff : Nat
  wait : Nat
  deriving DecidableEq, Repr

/-- `maxBackoff` (5 s) in nanoseconds. -/
def maxBackoffNs : Nat := 5000000000

/-- The initial backoff (500 ms) in nanoseconds. -/
def initialBackoffNs : Nat := 500000000

/-- The rapid-retry wait (200 ms) in nanoseconds. -/
def rapidWaitNs : Nat := 200000000

/-- Loop state of `WaitForPeerData`: current time, current backoff and
the attempt counter. -/
structure WaitState where
  now : Nat
  backoff : Nat
  attempt : Nat
  deriving DecidableEq, Repr

/-- Result of `WaitForPeerData`: the peer payload, the timeout error
(the only case in which the deadline check fails, returning no data),
or the model ran out of scripted poll outcomes. -/
inductive WaitResult where
  | gotData (s : String)
  | timedOut
  | envExhausted
  deriving DecidableEq, Repr

/-- Embedding of `(*SignalingClient).WaitForPeerData` (`signaling.go`)
as a function of the scripted poll outcomes.  Each loop iteration
checks the deadline, increments the attempt counter, performs the poll
(consuming `reqDur` of wall-clock time) and then branches exactly as
the Go code does; the returned log records every sleep. -/
def WaitForPeerData (deadline : Nat) :
    WaitState → List (PollOutcome × Nat) → WaitResult × List SleepEvent
  | st, [] =>
    if st.now ≥ deadline then (.timedOut, []) else (.envExhausted, [])
  | st, (o, reqDur) :: rest =>
    if st.now ≥ deadline then (.timedOut, [])
    else
      let attempt := st.attempt + 1
      let t := st.now + reqDur
      match o with
      | .payload s => (.gotData s, [])
      | .transportErr =>
        let w := st.backoff
        let b := if st.backoff < maxBackoffNs then st.backoff * 15 / 10 else st.backoff
        match WaitForPeerData deadline ⟨t + w, b, attempt⟩ rest with
        | (res, log) => (res, ⟨attempt, .transport, st.backoff, w⟩ :: log)
      | .readErr =>
        let w := st.backoff
        match WaitForPeerData deadline ⟨t + w, st.backoff, attempt⟩ rest with
        | (res, log) => (res, ⟨attempt, .readFail, st.backoff, w⟩ :: log)
      | .emptyOrNon200 =>
        let w := if attempt ≤ 3 then rapidWaitNs else st.backoff
        let b := if st.backoff < maxBackoffNs then st.backoff * 12 / 10 else st.backoff
        match WaitForPeerData deadline ⟨t + w, b, attempt⟩ rest with
        | (res, log) => (res, ⟨attempt, .empty, st.backoff, w⟩ :: log)

/-- The initial loop state: polling starts at time `t0` with a 500 ms
backoff and attempt counter 0. -/
def initWaitState (t0 : Nat) : WaitState :=
  { now := t0, backoff := initialBackoffNs, attempt := 0 }

theorem waitForPeerData_wait_spec (deadline : Nat) :
    ∀ (outs : List (PollOutcome × Nat)) (st : WaitState),
      ∀ e ∈ (WaitForPeerData deadline st outs).2,
        (e.kind = .empty → e.wait = if e.attempt ≤ 3 then rapidWaitNs else e.backoff) ∧
        (e.kind ≠ .empty → e.wait = e.backoff) := by
  intro outs
  induction outs with
  | nil =>
    intro st e he
    unfold WaitForPeerData at he
    split at he
    · simp at he
    · simp at he
  | cons od rest ih =>
    intro st e he
    obtain ⟨o, reqDur⟩ := od
    unfold WaitForPeerData at he
    split at he
    · simp at he
    · cases o with
      | payload s => simp at he
      | transportErr =>
        simp only [List.mem_cons] at he
        rcases he with he | he
        · subst he
          exact ⟨fun hk => by simp at hk, fun _ => rfl⟩
        · exact ih _ e he
      | readErr =>
        simp only [List.mem_cons] at he
        rcases he with he | he
        · subst he
          exact ⟨fun hk => by simp at hk, fun _ => rfl⟩
        · exact ih _ e he
      | emptyOrNon200 =>
        simp only [List.mem_cons] at he
        rcases he with he | he
        · subst he
          exact ⟨fun _ => rfl, fun hk => absurd rfl hk⟩
        · exact ih _ e he

theorem waitForPeerData_backoff_bound (deadline : Nat) :
    ∀ (outs : List (PollOutcome × Nat)) (st : WaitState),
      initialBackoffNs ≤ st.backoff → st.backoff < 7500000000 →
      ∀ e ∈ (WaitForPeerData deadline st outs).2,
        initialBackoffNs ≤ e.backoff ∧ e.backoff < 7500000000 := by
  intro outs
  induction outs with
  | nil =>
    intro st _ _ e he
    unfold WaitForPeerData at he
    split at he <;> simp at he
  | cons od rest ih =>
    intro st hlo hhi e he
    obtain ⟨o, reqDur⟩ := od
    unfold WaitForPeerData at he
    split at he
    · simp at he
    · cases o with
      | payload s => simp at he
      | transportErr =>
        simp only [List.mem_cons] at he
        rcases he with he | he
        · subst he; exact ⟨hlo, hhi⟩
        · refine ih _ ?_ ?_ e he <;> dsimp only <;> split <;> rename_i hg <;>
            · simp only [initialBackoffNs, maxBackoffNs] at hlo hhi hg ⊢
              omega
      | readErr =>
        simp only [List.mem_cons] at he
        rcases he with he | he
        · subst he; exact ⟨hlo, hhi⟩
        · refine ih _ ?_ ?_ e he <;> assumption
      | emptyOrNon200 =>
        simp only [List.mem_cons] at he
        rcases he with he | he
        · subst he; exact ⟨hlo, hhi⟩
        · refine ih _ ?_ ?_ e he <;> dsimp only <;> split <;> rename_i hg <;>
            · simp only [initialBackoffNs, maxBackoffNs] at hlo hhi hg ⊢
              omega

theorem waitForPeerData_timeout (deadline : Nat) (st : WaitState)
    (outs : List (PollOutcome × Nat)) (h : st.now ≥ deadline) :
    WaitForPeerData deadline st outs = (.timedOut, []) := by
  cases outs with
  | nil =>
    unfold WaitForPeerData
    rw [if_pos h]
  | cons od rest =>
    obtain ⟨o, reqDur⟩ := od
    unfold WaitForPeerData
    rw [if_pos h]

/-- Claim C5, counterexample: a transport error on the very first
attempt sleeps the full 500 ms initial backoff, not the claimed
`≤ 200 ms` rapid wait. -/
theorem C5_fetch_backoff_counterexample :
    (WaitForPeerData 1000000000000 (initWaitState 0) [(.transportErr, 0)]).2 =
        [{ attempt := 1, kind := .transport, backoff := initialBackoffNs,
           wait := initialBackoffNs }] ∧
      rapidWaitNs < initialBackoffNs := by
  exact ⟨by decide, by decide⟩

set_option maxHeartbeats 1000000 in
/-- Claim C5 (amended): the 200 ms rapid wait applies during the first
3 attempts only to polls that came back empty (or non-2xx); transport
errors always sleep the full current backoff, which starts at 500 ms;
backoff growth (×1.2 for empty polls, ×1.5 for transport errors, read
failures never grow it) is gated on `backoff < 5 s` rather than capping
the result, so a grown backoff can overshoot 5 s (staying below 7.5 s),
and a sleep longer than 5 s is actually reachable; once the deadline
has elapsed the call returns the timeout error and no payload. -/
theorem C5_fetch_backoff_behaviour :
    (∀ (deadline : Nat) (outs : List (PollOutcome × Nat)) (st : WaitState),
        ∀ e ∈ (WaitForPeerData deadline st outs).2,
          (e.kind = .empty → e.wait = if e.attempt ≤ 3 then rapidWaitNs else e.backoff) ∧
          (e.kind ≠ .empty → e.wait = e.backoff)) ∧
    (∀ (deadline t0 : Nat) (outs : List (PollOutcome × Nat)),
        ∀ e ∈ (WaitForPeerData deadline (initWaitState t0) outs).2,
          initialBackoffNs ≤ e.backoff ∧ e.backoff < 7500000000) ∧
    (∀ (deadline : Nat) (st : WaitState) (outs : List (PollOutcome × Nat)),
        st.now ≥ deadline → WaitForPeerData deadline st outs = (.timedOut, [])) ∧
    (∃ e ∈ (WaitForPeerData 1000000000000 (initWaitState 0)
          (List.replicate 14 (.emptyOrNon200, 0))).2,
        maxBackoffNs < e.wait) := by
  refine ⟨fun deadline outs st => waitForPeerData_wait_spec deadline outs st,
    fun deadline t0 outs =>
      waitForPeerData_backoff_bound deadline outs (initWaitState t0) (le_refl _)
        (show initialBackoffNs < 7500000000 by decide),
    fun deadline st outs h => waitForPeerData_timeout deadline st outs h,
    by decide⟩

/-- Claim C5, witness: the hypotheses of
`C5_fetch_backoff_behaviour` discharged at concrete inputs (a one-poll
run for the wait characterization, and an already-elapsed deadline for
the timeout clause). -/
theorem C5_fetch_backoff_behaviour_witness :
    ({ attempt := 1, kind := .transport, backoff := initialBackoffNs,
        wait := initialBackoffNs : SleepEvent }.kind ≠ SleepKind.empty →
      ({ attempt := 1, kind := .transport, backoff := initialBackoffNs,
          wait := initialBackoffNs : SleepEvent }).wait = initialBackoffNs) ∧
    WaitForPeerData 5 { now := 7, backoff := initialBackoffNs, attempt := 0 } [] =
      (.timedOut, []) :=
  ⟨fun hk => (C5_fetch_backoff_behaviour.1 1000000000000 [(.transportErr, 0)]
      (initWaitState 0)
      { attempt := 1, kind := .transport, backoff := initialBackoffNs,
        wait := initialBackoffNs } (by decide)).2 hk,
    C5_fetch_backoff_behaviour.2.2.1 5
      { now := 7, backoff := initialBackoffNs, attempt := 0 } [] (by decide)⟩

/-! ### UDP session manager (claim C7)

Embedding of `UDPSessionManager` with `GetOrCreateSession` and
`CleanupExpiredSessions` (`forwarder.go`).  The Go map is an
association list keyed by `clientAddr.String()`; sockets are abstract
identifiers; `net.DialUDP` outcomes come from the caller. -/

/-- The `UDPSession` record (`forwarder.go`): source address, the
connected upstream socket and the activity timestamp. -/
structure UDPSession where
  ClientAddr : String
  ServerConn : Nat
  LastActivity : Nat
  deriving DecidableEq, Repr

/-- The `UDPSessionManager` record (`forwarder.go`): the session map
and the idle timeout. -/
structure UDPSessionManager where
  sessions : List (String × UDPSession)
  timeout : Nat
  deriving DecidableEq, Repr

/-- Embedding of `NewUDPSessionManager` (`forwarder.go`). -/
def NewUDPSessionManager (timeout : Nat) : UDPSessionManager :=
  { sessions := [], timeout := timeout }

/-- Go map read `sm.sessions[key]`. -/
def lookupSession (k : String) : List (String × UDPSession) → Option UDPSession
  | [] => none
  | kv :: rest => if kv.1 = k then some kv.2 else lookupSession k rest

/-- The in-place `session.LastActivity = time.Now()` on the session the
map holds under `key` (a pointer update in Go). -/
def refreshSessions (key : String) (now : Nat) :
    List (String × UDPSession) → List (String × UDPSession)
  | [] => []
  | kv :: rest =>
    if kv.1 = key then (kv.1, { kv.2 with LastActivity := now }) :: rest
    else kv :: refreshSessions key now rest

/-- Embedding of `(*UDPSessionManager).GetOrCreateSession`
(`forwarder.go`): under the map lock, return the existing session for
the source (updating its activity), otherwise dial a new upstream
socket (`dialResult`; `none` is the dial error, returned to the caller)
and insert exactly one new session. -/
def GetOrCreateSession (sm : UDPSessionManager) (clientAddr : String) (now : Nat)
    (dialResult : Option Nat) : Option UDPSession × UDPSessionManager :=
  let key := clientAddr
  match lookupSession key sm.sessions with
  | some session =>
    (some { session with LastActivity := now },
      { sm with sessions := refreshSessions key now sm.sessions })
  | none =>
    match dialResult with
    | none => (none, sm)
    | some serverConn =>
      let session : UDPSession :=
        { ClientAddr := clientAddr, ServerConn := serverConn, LastActivity := now }
      (some session, { sm with sessions := sm.sessions ++ [(key, session)] })

/-- The sweep's expiry test `now.Sub(session.LastActivity) > sm.timeout`
(`forwarder.go`; a last activity in the future gives a non-positive
difference in Go and `0` here, expired in neither). -/
def sessionExpired (timeout now : Nat) (s : UDPSession) : Bool :=
  timeout < now - s.LastActivity

/-- Embedding of `(*UDPSessionManager).CleanupExpiredSessions`
(`forwarder.go`): every expired session's upstream socket is closed
(the returned socket list) and its map entry deleted. -/
def CleanupExpiredSessions (sm : UDPSessionManager) (now : Nat) :
    UDPSessionManager × List Nat :=
  ({ sm with
      sessions := sm.sessions.filter (fun kv => !sessionExpired sm.timeout now kv.2) },
    (sm.sessions.filter (fun kv => sessionExpired sm.timeout now kv.2)).map
      (fun kv => kv.2.ServerConn))

/-- Key list of a session table. -/
def sessionKeys (l : List (String × UDPSession)) : List String := l.map Prod.fst

theorem lookupSession_eq_none {k : String} :
    ∀ {l : List (String × UDPSession)}, lookupSession k l = none ↔ k ∉ sessionKeys l := by
  intro l
  induction l with
  | nil => simp [lookupSession, sessionKeys]
  | cons kv rest ih =>
    by_cases hk : kv.1 = k
    · simp [lookupSession, hk, sessionKeys]
    · simp [lookupSession, hk, sessionKeys, ih, Ne.symm hk]

theorem sessionKeys_refresh (key : String) (now : Nat) :
    ∀ l, sessionKeys (refreshSessions key now l) = sessionKeys l := by
  intro l
  induction l with
  | nil => rfl
  | cons kv rest ih =>
    by_cases hk : kv.1 = key
    · simp [refreshSessions, hk, sessionKeys]
    · simp only [refreshSessions, if_neg hk]
      simp [sessionKeys] at ih ⊢
      exact ih

theorem lookupSession_refresh (key : String) (now : Nat) :
    ∀ (l : List (String × UDPSession)) (k : String),
      lookupSession k (refreshSessions key now l) =
        if k = key then
          (lookupSession key l).map (fun s => { s with LastActivity := now })
        else lookupSession k l := by
  intro l
  induction l with
  | nil => intro k; simp [refreshSessions, lookupSession]
  | cons kv rest ih =>
    intro k
    by_cases hkey : kv.1 = key
    · by_cases hk : k = key
      · subst hk
        simp [refreshSessions, hkey, lookupSession]
      · have hne : kv.1 ≠ k := fun h => hk ((h ▸ hkey : k = key))
        simp only [refreshSessions, if_pos hkey, lookupSession, if_neg hne, if_neg hk]
    · by_cases hk : k = key
      · have hne : kv.1 ≠ k := fun h => hkey (h.trans hk)
        simp only [refreshSessions, if_neg hkey, lookupSession, if_neg hne, ih, if_pos hk]
      · simp only [refreshSessions, if_neg hkey, lookupSession, ih, if_neg hk]

theorem lookupSession_append_single (key k : String) (s : UDPSession) :
    ∀ l, lookupSession k (l ++ [(key, s)]) =
      match lookupSession k l with
      | some v => some v
      | none => if key = k then some s else none := by
  intro l
  induction l with
  | nil => simp [lookupSession]
  | cons kv rest ih =>
    by_cases hk : kv.1 = k
    · simp [lookupSession, hk]
    · simp only [List.cons_append, lookupSession, if_neg hk, List.append_eq, ih]

theorem lookupSession_filter (p : UDPSession → Bool) (k : String) :
    ∀ l : List (String × UDPSession), (sessionKeys l).Nodup →
      lookupSession k (l.filter (fun kv => p kv.2)) =
        match lookupSession k l with
        | some v => if p v then some v else none
        | none => none := by
  intro l
  induction l with
  | nil => intro _; simp [lookupSession]
  | cons kv rest ih =>
    intro hnd
    simp only [sessionKeys, List.map_cons, List.nodup_cons] at hnd
    have hnd2 : (sessionKeys rest).Nodup := hnd.2
    by_cases hk : kv.1 = k
    · have hrest : lookupSession k rest = none := by
        rw [lookupSession_eq_none]
        exact hk ▸ hnd.1
      rw [show lookupSession k (kv :: rest) = some kv.2 from by simp [lookupSession, hk]]
      by_cases hp : p kv.2
      · simp only [List.filter_cons, hp, if_true, lookupSession, if_pos hk]
      · simp only [List.filter_cons, hp, Bool.false_eq_true, if_false]
        rw [ih hnd2, hrest]
    · rw [show lookupSession k (kv :: rest) = lookupSession k rest from by
        simp [lookupSession, hk]]
      by_cases hp : p kv.2
      · simp only [List.filter_cons, hp, if_true, lookupSession, if_neg hk]
        exact ih hnd2
      · simp only [List.filter_cons, hp, Bool.false_eq_true, if_false]
        exact ih hnd2

/-- Claim C7: the UDP session table keeps at most one session per
source key (key uniqueness is preserved by both operations from the
empty initial table); `GetOrCreateSession` returns the existing session
with `LastActivity` refreshed, touching no other entry and inserting
nothing, when the key is present; otherwise it inserts exactly one new
session holding the freshly dialed socket (or propagates the dial
error, leaving the table unchanged); a sweep pass removes exactly the
sessions whose idle time exceeds the timeout and closes exactly those
sessions' upstream sockets. -/
theorem C7_session_table_invariants :
    (∀ (sm : UDPSessionManager) (addr : String) (now : Nat) (dial : Option Nat),
        (sessionKeys sm.sessions).Nodup →
        (sessionKeys (GetOrCreateSession sm addr now dial).2.sessions).Nodup) ∧
    (∀ (sm : UDPSessionManager) (now : Nat),
        (sessionKeys sm.sessions).Nodup →
        (sessionKeys (CleanupExpiredSessions sm now).1.sessions).Nodup) ∧
    (∀ (sm : UDPSessionManager) (addr : String) (now : Nat) (dial : Option Nat)
        (s : UDPSession),
        lookupSession addr sm.sessions = some s →
        (GetOrCreateSession sm addr now dial).1 = some { s with LastActivity := now } ∧
        (∀ k, lookupSession k (GetOrCreateSession sm addr now dial).2.sessions =
          if k = addr then some { s with LastActivity := now }
          else lookupSession k sm.sessions) ∧
        (GetOrCreateSession sm addr now dial).2.sessions.length = sm.sessions.length) ∧
    (∀ (sm : UDPSessionManager) (addr : String) (now sock : Nat),
        lookupSession addr sm.sessions = none →
        (GetOrCreateSession sm addr now (some sock)).1 =
          some { ClientAddr := addr, ServerConn := sock, LastActivity := now } ∧
        (∀ k, lookupSession k (GetOrCreateSession sm addr now (some sock)).2.sessions =
          if k = addr then
            some { ClientAddr := addr, ServerConn := sock, LastActivity := now }
          else lookupSession k sm.sessions) ∧
        (GetOrCreateSession sm addr now (some sock)).2.sessions.length =
          sm.sessions.length + 1) ∧
    (∀ (sm : UDPSessionManager) (addr : String) (now : Nat),
        lookupSession addr sm.sessions = none →
        GetOrCreateSession sm addr now none = (none, sm)) ∧
    (∀ (sm : UDPSessionManager) (now : Nat) (k : String),
        (sessionKeys sm.sessions).Nodup →
        lookupSession k (CleanupExpiredSessions sm now).1.sessions =
          match lookupSession k sm.sessions with
          | some s => if sessionExpired sm.timeout now s then none else some s
          | none => none) ∧
    (∀ (sm : UDPSessionManager) (now : Nat),
        (CleanupExpiredSessions sm now).2 =
          (sm.sessions.filter (fun kv => sessionExpired sm.timeout now kv.2)).map
            (fun kv => kv.2.ServerConn)) := by
  refine ⟨?_, ?_, ?_, ?_, ?_, ?_, fun _ _ => rfl⟩
  · intro sm addr now dial hnd
    unfold GetOrCreateSession
    dsimp only
    cases hl : lookupSession addr sm.sessions with
    | some s =>
      dsimp only
      rw [sessionKeys_refresh]
      exact hnd
    | none =>
      cases dial with
      | none => exact hnd
      | some sock =>
        dsimp only
        have hmem : addr ∉ sessionKeys sm.sessions := lookupSession_eq_none.mp hl
        simp only [sessionKeys, List.map_append, List.map_cons, List.map_nil]
        rw [List.nodup_append]
        refine ⟨hnd, List.nodup_singleton addr, ?_⟩
        intro x hx hxm
        simp only [List.mem_singleton] at hxm
        exact hmem (by simpa [sessionKeys, hxm] using hx)
  · intro sm now hnd
    refine List.Nodup.sublist ?_ hnd
    exact List.Sublist.map Prod.fst (List.filter_sublist sm.sessions)
  · intro sm addr now dial s hl
    unfold GetOrCreateSession
    dsimp only
    rw [hl]
    dsimp only
    refine ⟨rfl, ?_, ?_⟩
    · intro k
      rw [lookupSession_refresh addr now sm.sessions k]
      by_cases hk : k = addr
      · rw [if_pos hk, if_pos hk, hl]
        rfl
      · rw [if_neg hk, if_neg hk]
    · have := congrArg List.length (sessionKeys_refresh addr now sm.sessions)
      simpa [sessionKeys] using this
  · intro sm addr now sock hl
    unfold GetOrCreateSession
    dsimp only
    rw [hl]
    dsimp only
    refine ⟨rfl, ?_, by simp⟩
    intro k
    rw [lookupSession_append_single addr k _ sm.sessions]
    by_cases hk : k = addr
    · rw [if_pos hk, hk, hl]
      simp
    · rw [if_neg hk]
      cases hkl : lookupSession k sm.sessions with
      | some v => rfl
      | none =>
        dsimp only
        rw [if_neg (fun h => hk h.symm)]
  · intro sm addr now hl
    unfold GetOrCreateSession
    dsimp only
    rw [hl]
  · intro sm now k hnd
    unfold CleanupExpiredSessions
    dsimp only
    rw [lookupSession_filter (fun s => !sessionExpired sm.timeout now s) k sm.sessions hnd]
    cases hkl : lookupSession k sm.sessions with
    | none => rfl
    | some v =>
      dsimp only
      by_cases he : sessionExpired sm.timeout now v
      · rw [if_pos he, if_neg (by simp [he])]
      · rw [if_neg he, if_pos (by simp [he])]

/-- Claim C7, witness: the insertion clause of
`C7_session_table_invariants` applied to the empty table with a fresh
socket, and the sweep clause applied to a one-session table whose
session has been idle longer than the timeout. -/
theorem C7_session_table_invariants_witness :
    (GetOrCreateSession (NewUDPSessionManager 300000000000) "1.2.3.4:50000" 0 (some 7)).1 =
        some { ClientAddr := "1.2.3.4:50000", ServerConn := 7, LastActivity := 0 } ∧
      lookupSession "1.2.3.4:50000"
          (CleanupExpiredSessions
            { sessions := [("1.2.3.4:50000",
                { ClientAddr := "1.2.3.4:50000", ServerConn := 7, LastActivity := 0 })],
              timeout := 300000000000 } 300000000001).1.sessions = none :=
  ⟨(C7_session_table_invariants.2.2.2.1 (NewUDPSessionManager 300000000000)
      "1.2.3.4:50000" 0 7 (by decide)).1,
    by
      rw [C7_session_table_invariants.2.2.2.2.2.1 _ 300000000001 "1.2.3.4:50000"
        (by decide)]
      decide⟩

/-! ### UDP relay datagram handling (claim C1)

Per-datagram behaviour of the two live UDP relay listeners: the
client-side `runUDPClient` (`forwarder.go`, the session-managed
variant) and the server-side `runUDPServerOnPort` (`forwarder.go`, the
one `handleServerMode` in `run.go` actually starts).  A step consumes
one received datagram and emits the I/O actions the loop body
performs. -/

/-- I/O actions a relay step can emit: a `Write` on a session's
connected upstream socket, a `Read` on it under a read deadline, and a
`WriteToUDP` through the listening socket to an explicit address. -/
inductive UDPRelayAction where
  | sessionWrite (sock : Nat) (payload : List Nat)
  | sessionRead (sock : Nat) (deadlineNs : Nat)
  | listenerSend (dest : String) (payload : List Nat)
  deriving DecidableEq, Repr

/-- External outcomes one client relay step depends on: the
`net.DialUDP` result for a fresh session, whether the upstream `Write`
succeeded, and the upstream `Read` result (`none` covers the
2-second-deadline timeout and read errors). -/
structure RelayStepEnv where
  dial : Option Nat
  writeOk : Bool
  response : Option (List Nat)

/-- Embedding of the per-datagram body of `runUDPClient`
(`forwarder.go`): get or create the session for the source, write the
payload upstream, read the response under a 2 s deadline and send it
back to the session's client address. -/
def runUDPClientStep (sm : UDPSessionManager) (src : String) (payload : List Nat)
    (now : Nat) (env : RelayStepEnv) : UDPSessionManager × List UDPRelayAction :=
  match GetOrCreateSession sm src now env.dial with
  | (none, sm') => (sm', [])
  | (some sess, sm') =>
    match env.writeOk, env.response with
    | false, _ =>
      (sm', [.sessionWrite sess.ServerConn payload])
    | true, none =>
      (sm', [.sessionWrite sess.ServerConn payload,
        .sessionRead sess.ServerConn 2000000000])
    | true, some resp =>
      (sm', [.sessionWrite sess.ServerConn payload,
        .sessionRead sess.ServerConn 2000000000,
        .listenerSend sess.ClientAddr resp])

/-- The target address `127.0.0.1:<localServicePort>` of
`runUDPServerOnPort` (`forwarder.go`). -/
def localServiceAddr (localServicePort : Int) : String :=
  String.mk ("127.0.0.1:".data ++ intChars localServicePort)

/-- Embedding of the per-datagram body of `runUDPServerOnPort`
(`forwarder.go`): the payload is forwarded through the listening socket
itself to `127.0.0.1:localServicePort`; no session is created, nothing
is read back and nothing is sent to the datagram's source. -/
def runUDPServerOnPortStep (localServicePort : Int) (_src : String)
    (payload : List Nat) : List UDPRelayAction :=
  [.listenerSend (localServiceAddr localServicePort) payload]

/-- Whether some action writes `payload` on a session's upstream
socket. -/
def writesUpstream (payload : List Nat) (acts : List UDPRelayAction) : Bool :=
  acts.any fun a =>
    match a with
    | .sessionWrite _ p => decide (p = payload)
    | _ => false

/-- Whether some action reads from an upstream socket. -/
def readsUpstream (acts : List UDPRelayAction) : Bool :=
  acts.any fun a =>
    match a with
    | .sessionRead _ _ => true
    | _ => false

/-- Whether some action sends through the listener to `dest`. -/
def sendsTo (dest : String) (acts : List UDPRelayAction) : Bool :=
  acts.any fun a =>
    match a with
    | .listenerSend d _ => decide (d = dest)
    | _ => false

/-- The claim's description of one relay step, modelled from its words:
the datagram's payload is written to an upstream socket, and whatever
an upstream read produced (`response`) is written back to the original
source endpoint. -/
def relayStepMeetsClaim (src : String) (payload : List Nat)
    (response : Option (List Nat)) (acts : List UDPRelayAction) : Prop :=
  writesUpstream payload acts = true ∧
    ∀ resp, response = some resp → readsUpstream acts = true →
      UDPRelayAction.listenerSend src resp ∈ acts

/-- Every session in the table is stored under its own client
address (true of every table the session manager builds). -/
def addrConsistent (sm : UDPSessionManager) : Prop :=
  ∀ k s, lookupSession k sm.sessions = some s → s.ClientAddr = k

theorem addrConsistent_getOrCreate {sm : UDPSessionManager} (addr : String) (now : Nat)
    (dial : Option Nat) (h : addrConsistent sm) :
    addrConsistent (GetOrCreateSession sm addr now dial).2 := by
  intro k s hk
  unfold GetOrCreateSession at hk
  dsimp only at hk
  cases hl : lookupSession addr sm.sessions with
  | some old =>
    rw [hl] at hk
    dsimp only at hk
    rw [lookupSession_refresh addr now sm.sessions k] at hk
    by_cases hka : k = addr
    · rw [if_pos hka, hl] at hk
      injection hk with hk
      subst hk
      subst hka
      exact h k old hl
    · rw [if_neg hka] at hk
      exact h _ _ hk
  | none =>
    rw [hl] at hk
    cases dial with
    | none => exact h _ _ hk
    | some sock =>
      dsimp only at hk
      rw [lookupSession_append_single addr k _ sm.sessions] at hk
      cases hkl : lookupSession k sm.sessions with
      | some v =>
        rw [hkl] at hk
        injection hk with hk
        subst hk
        exact h _ _ hkl
      | none =>
        rw [hkl] at hk
        dsimp only at hk
        by_cases hak : addr = k
        · rw [if_pos hak] at hk
          injection hk with hk
          subst hk
          exact hak
        · rw [if_neg hak] at hk
          exact Option.noConfusion hk

theorem runUDPClientStep_lookup {sm : UDPSessionManager} {src : String} {now : Nat}
    {dial : Option Nat} {sess : UDPSession} {sm' : UDPSessionManager}
    (h : GetOrCreateSession sm src now dial = (some sess, sm')) :
    lookupSession src sm'.sessions = some sess := by
  unfold GetOrCreateSession at h
  dsimp only at h
  cases hl : lookupSession src sm.sessions with
  | some old =>
    rw [hl] at h
    dsimp only at h
    injection h with h1 h2
    injection h1 with h1
    subst h1
    subst h2
    dsimp only
    rw [lookupSession_refresh src now sm.sessions src, if_pos rfl, hl]
    rfl
  | none =>
    rw [hl] at h
    cases dial with
    | none => exact absurd h (by simp)
    | some sock =>
      dsimp only at h
      injection h with h1 h2
      injection h1 with h1
      subst h1
      subst h2
      dsimp only
      rw [lookupSession_append_single src src _ sm.sessions, hl]
      simp

/-- Claim C1 (amended): the client-side relay listener does satisfy the
claim per datagram: the payload goes to the per-source session's
upstream socket, any upstream read uses the 2-second read deadline and
its result is sent back to the original source.  The server-side relay
listener (`runUDPServerOnPort`, the one the server actually runs) has
no per-source sessions: it forwards each datagram through the listening
socket straight to `127.0.0.1:remotePort` (its `localServicePort`
argument is the mapping's `RemotePort` at every call site in `run.go`)
and performs no upstream read and no write back to the source. -/
theorem C1_udp_relay_datagram :
    (∀ (sm : UDPSessionManager) (src : String) (payload : List Nat) (now : Nat)
        (env : RelayStepEnv) (sess : UDPSession) (sm' : UDPSessionManager),
        addrConsistent sm →
        GetOrCreateSession sm src now env.dial = (some sess, sm') →
        (runUDPClientStep sm src payload now env).1 = sm' ∧
        relayStepMeetsClaim src payload env.response
          (runUDPClientStep sm src payload now env).2 ∧
        UDPRelayAction.sessionWrite sess.ServerConn payload ∈
          (runUDPClientStep sm src payload now env).2 ∧
        (∀ sock dl, UDPRelayAction.sessionRead sock dl ∈
            (runUDPClientStep sm src payload now env).2 →
          sock = sess.ServerConn ∧ dl = 2000000000) ∧
        (∀ resp, env.response = some resp → env.writeOk = true →
          UDPRelayAction.listenerSend src resp ∈
            (runUDPClientStep sm src payload now env).2)) ∧
    (∀ (localServicePort : Int) (src : String) (payload : List Nat),
        runUDPServerOnPortStep localServicePort src payload =
          [UDPRelayAction.listenerSend (localServiceAddr localServicePort) payload]) := by
  constructor
  · intro sm src payload now env sess sm' hconsistent hgoc
    have hc' : addrConsistent sm' := by
      have h0 := @addrConsistent_getOrCreate sm src now env.dial hconsistent
      rw [hgoc] at h0
      exact h0
    have hsrc : sess.ClientAddr = src := hc' _ _ (runUDPClientStep_lookup hgoc)
    unfold runUDPClientStep
    rw [hgoc]
    dsimp only
    cases hw : env.writeOk with
    | false =>
      dsimp only
      refine ⟨rfl, ⟨by simp [writesUpstream], ?_⟩, by simp, ?_, ?_⟩
      · intro resp _ hr
        simp [readsUpstream] at hr
      · intro sock dl hmem
        simp at hmem
      · intro resp _ hwt
        exact absurd hwt (by simp [hw])
    | true =>
      cases hresp : env.response with
      | some resp =>
        dsimp only
        refine ⟨rfl, ⟨by simp [writesUpstream], ?_⟩, by simp, ?_, ?_⟩
        · intro r hr _
          injection hr with hr
          subst hr
          simp [hsrc]
        · intro sock dl hmem
          simp at hmem
          rcases hmem with ⟨h1, h2⟩
          exact ⟨h1, h2⟩
        · intro r hr _
          injection hr with hr
          subst hr
          simp [hsrc]
      | none =>
        dsimp only
        refine ⟨rfl, ⟨by simp [writesUpstream], ?_⟩, by simp, ?_, ?_⟩
        · intro r hr _
          exact Option.noConfusion hr
        · intro sock dl hmem
          simp at hmem
          rcases hmem with ⟨h1, h2⟩
          exact ⟨h1, h2⟩
        · intro r hr _
          exact Option.noConfusion hr
  · intro localServicePort src payload
    rfl

/-- Claim C1, counterexample: on a concrete datagram the server-side
relay step (`runUDPServerOnPort`) writes nothing to any per-source
upstream socket and sends nothing back to the source - it only forwards
the payload through the listening socket to `127.0.0.1:5000` - so the
claim fails for the server relay listener. -/
theorem C1_udp_relay_datagram_counterexample :
    ¬ relayStepMeetsClaim "9.9.9.9:1234" [104, 105] none
        (runUDPServerOnPortStep 5000 "9.9.9.9:1234" [104, 105]) ∧
      runUDPServerOnPortStep 5000 "9.9.9.9:1234" [104, 105] =
        [UDPRelayAction.listenerSend "127.0.0.1:5000" [104, 105]] := by
  constructor
  · intro h
    exact absurd h.1 (by decide)
  · decide

/-- Claim C1, witness: the client clause of `C1_udp_relay_datagram`
applied to an empty session table, a fresh socket `3` and a successful
upstream round trip. -/
theorem C1_udp_relay_datagram_witness :
    UDPRelayAction.sessionWrite 3 [1] ∈
      (runUDPClientStep (NewUDPSessionManager 300000000000) "8.8.8.8:53" [1] 0
        { dial := some 3, writeOk := true, response := some [7] }).2 :=
  (C1_udp_relay_datagram.1 (NewUDPSessionManager 300000000000) "8.8.8.8:53" [1] 0
    { dial := some 3, writeOk := true, response := some [7] }
    { ClientAddr := "8.8.8.8:53", ServerConn := 3, LastActivity := 0 }
    { sessions := [("8.8.8.8:53",
        { ClientAddr := "8.8.8.8:53", ServerConn := 3, LastActivity := 0 })],
      timeout := 300000000000 }
    (fun _ _ h => Option.noConfusion h)
    (by decide)).2.2.1

/-! ### Server-mode bootstrap ordering (claim C8)

Trace model of `handleServerMode` (`run.go`): the network-information
discovery, the fetch of the client registration, the per-mapping port
allocations and every `PostSignal` publish appear as events in program
order; `log.Fatalf` aborts the trace with a `fatal` event. -/

/-- Events `handleServerMode` emits, in program order. -/
inductive SrvEvent where
  | discover
  | fetch (role : String)
  | allocatePort (protocol : String)
  | publish (role : String)
  | fatal
  deriving DecidableEq, Repr

/-- Outcomes of the external calls `handleServerMode` makes: network
discovery, `WaitForPeerData` for the client registration, the JSON
unmarshal of that registration (abstract, yielding its mapping
strings), the per-mapping port allocation results, and how many
30-second refresh publishes are observed. -/
structure ServerModeEnv where
  discoverOk : Bool
  fetchClient : Option String
  parseClient : String → Option (List String)
  alloc : Nat → Option Nat
  refreshTicks : Nat

/-- The mapping-string parsing loop of `handleServerMode`: each string
goes through `parseFromString`, and any failure is fatal. -/
def parseMappingList : List String → Option (List PortMapping)
  | [] => some []
  | s :: rest =>
    match parseFromString s with
    | none => none
    | some m =>
      match parseMappingList rest with
      | none => none
      | some ms => some (m :: ms)

/-- The allocation loop of `handleServerMode`: one `allocatePort` event
per mapping, aborting on the first failure. -/
def allocatePorts (alloc : Nat → Option Nat) :
    Nat → List PortMapping → Option (List (PortMapping × Nat)) × List SrvEvent
  | _, [] => (some [], [])
  | i, m :: rest =>
    match alloc i with
    | none => (none, [.allocatePort m.Protocol])
    | some port =>
      match allocatePorts alloc (i + 1) rest with
      | (res, evs) =>
        (res.map (fun xs => (m, port) :: xs), .allocatePort m.Protocol :: evs)

/-- Embedding of `handleServerMode` (`run.go`) as its event trace: no
publish happens before the client registration has been fetched, its
mappings parsed and all ports allocated; after the single registration
publish the 30 s ticker re-publishes the same registration. -/
def handleServerMode (env : ServerModeEnv) : List SrvEvent :=
  SrvEvent.discover ::
    (match env.discoverOk with
     | false => [.fatal]
     | true => .fetch "client" ::
       (match env.fetchClient with
        | none => [.fatal]
        | some data =>
          match env.parseClient data with
          | none => [.fatal]
          | some mappingStrs =>
            match parseMappingList mappingStrs with
            | none => [.fatal]
            | some mappings =>
              match allocatePorts env.alloc 0 mappings with
              | (none, evs) => evs ++ [.fatal]
              | (some _, evs) =>
                evs ++ .publish "server" ::
                  List.replicate env.refreshTicks (.publish "server")))

theorem allocatePorts_events (alloc : Nat → Option Nat) :
    ∀ (ms : List PortMapping) (i : Nat),
      ∀ ev ∈ (allocatePorts alloc i ms).2, ∃ p, ev = SrvEvent.allocatePort p := by
  intro ms
  induction ms with
  | nil => intro i ev hev; simp [allocatePorts] at hev
  | cons m rest ih =>
    intro i ev hev
    unfold allocatePorts at hev
    cases ha : alloc i with
    | none =>
      rw [ha] at hev
      simp at hev
      exact ⟨m.Protocol, hev⟩
    | some port =>
      rw [ha] at hev
      dsimp only at hev
      rw [List.mem_cons] at hev
      rcases hev with hev | hev
      · exact ⟨m.Protocol, hev⟩
      · exact ih (i + 1) ev hev

/-- Claim C8: in server mode every publish to the signaling endpoint
comes strictly after the fetch of the client role, and all per-mapping
port allocations lie strictly before it, so the first publish happens
only once the client registration has been read and its ports
allocated. -/
theorem C8_server_publishes_after_fetch :
    ∀ (env : ServerModeEnv) (i : Nat) (r : String),
      (handleServerMode env).get? i = some (SrvEvent.publish r) →
      (∃ j, j < i ∧ (handleServerMode env).get? j = some (SrvEvent.fetch "client")) ∧
      (∀ k p, (handleServerMode env).get? k = some (SrvEvent.allocatePort p) → k < i) := by
  intro env i r hpub
  unfold handleServerMode at hpub ⊢
  cases hdisc : env.discoverOk with
  | false =>
    try simp only [hdisc] at hpub
    try dsimp only at hpub
    have := List.get?_mem hpub
    simp at this
  | true =>
    try simp only [hdisc] at hpub
    try simp only [hdisc]
    try dsimp only at hpub
    try dsimp only
    cases hf : env.fetchClient with
    | none =>
      try simp only [hf] at hpub
      try dsimp only at hpub
      have := List.get?_mem hpub
      simp at this
    | some data =>
      try simp only [hf] at hpub
      try simp only [hf]
      try dsimp only at hpub
      try dsimp only
      cases hp : env.parseClient data with
      | none =>
        try simp only [hp] at hpub
        try dsimp only at hpub
        have := List.get?_mem hpub
        simp at this
      | some strs =>
        try simp only [hp] at hpub
        try simp only [hp]
        try dsimp only at hpub
        try dsimp only
        cases hm : parseMappingList strs with
        | none =>
          try simp only [hm] at hpub
          try dsimp only at hpub
          have := List.get?_mem hpub
          simp at this
        | some mappings =>
          try simp only [hm] at hpub
          try simp only [hm]
          try dsimp only at hpub
          try dsimp only
          cases hal : allocatePorts env.alloc 0 mappings with
          | mk res evs =>
            try simp only [hal] at hpub
            try simp only [hal]
            try dsimp only at hpub
            try dsimp only
            have hevs : ∀ ev ∈ evs, ∃ q, ev = SrvEvent.allocatePort q := by
              intro ev hev
              refine allocatePorts_events env.alloc mappings 0 ev ?_
              rw [hal]
              exact hev
            cases res with
            | none =>
              try dsimp only at hpub
              have hmem := List.get?_mem hpub
              simp only [List.mem_cons, List.mem_append, List.mem_singleton,
                List.not_mem_nil, or_false] at hmem
              rcases hmem with h | h | h | h
              · exact SrvEvent.noConfusion h
              · exact SrvEvent.noConfusion h
              · obtain ⟨q, hq⟩ := hevs _ h
                exact SrvEvent.noConfusion hq
              · exact SrvEvent.noConfusion h
            | some table =>
              try dsimp only at hpub
              try dsimp only
              match i, hpub with
              | 0, hpub => exact absurd hpub (by simp)
              | 1, hpub => exact absurd hpub (by simp)
              | n + 2, hpub =>
                rw [List.get?_cons_succ, List.get?_cons_succ] at hpub
                have hlen : evs.length ≤ n := by
                  by_contra hlt
                  push_neg at hlt
                  rw [List.get?_append hlt] at hpub
                  obtain ⟨q, hq⟩ := hevs _ (List.get?_mem hpub)
                  exact SrvEvent.noConfusion hq
                refine ⟨⟨1, by omega, rfl⟩, ?_⟩
                intro k p hk
                match k, hk with
                | 0, hk => exact absurd hk (by simp)
                | 1, hk => exact absurd hk (by simp)
                | kn + 2, hk =>
                  rw [List.get?_cons_succ, List.get?_cons_succ] at hk
                  have hklen : kn < evs.length := by
                    by_contra hge
                    push_neg at hge
                    rw [List.get?_append_right hge] at hk
                    have hmem := List.get?_mem hk
                    rw [List.mem_cons] at hmem
                    rcases hmem with h | h
                    · exact SrvEvent.noConfusion h
                    · rw [List.mem_replicate] at h
                      exact SrvEvent.noConfusion h.2
                  omega

/-- Claim C8, witness: `C8_server_publishes_after_fetch` applied to a
concrete successful bootstrap (one mapping, one allocation, publish at
index 3). -/
theorem C8_server_publishes_after_fetch_witness :
    ∃ j, j < 3 ∧
      (handleServerMode
        { discoverOk := true, fetchClient := some "reg",
          parseClient := fun _ => some ["tcp:5001:5000"],
          alloc := fun _ => some 40000, refreshTicks := 0 }).get? j =
        some (SrvEvent.fetch "client") :=
  (C8_server_publishes_after_fetch
    { discoverOk := true, fetchClient := some "reg",
      parseClient := fun _ => some ["tcp:5001:5000"],
      alloc := fun _ => some 40000, refreshTicks := 0 } 3 "server" (by decide)).1

/-! ### Enhanced hole punching (claim C4)

Embedding of `performSynchronizedHolePunching` and its helpers
(`tryDirectConnection`, `tryPortPrediction`, unnamed source part).
Each direct-connection probe is an event carrying the probe's addresses,
the overall socket deadline passed in, and the effective read window:
`tryDirectConnection` calls `SetDeadline(now + timeout)` but then
overrides the read deadline with `SetReadDeadline(now + 2s)` right
after the initial send, so every probe's read waits at most 2 s
regardless of the `timeout` argument.  The environment supplies the
outcome of each probe (indexed in probe order) and of the simultaneous
send. -/

/-- Observable steps of a hole-punching run. -/
inductive HPEvent where
  | direct (localAddr remoteAddr : String) (timeoutNs readWindowNs : Nat)
  | simultaneous
  | sleepNs (ns : Nat)
  deriving DecidableEq, Repr

/-- Which strategy produced the winning path. -/
inductive HPStrategy where
  | lanDirect
  | enhancedSimultaneous
  | stunDirect (attempt : Nat)
  | portPrediction (offset : Int)
  deriving DecidableEq, Repr

/-- The `HolePunchConfig` record (unnamed source part). -/
structure HolePunchConfig where
  LocalSTUNAddr : String
  RemoteSTUNAddr : String
  LocalPrivateAddr : String
  RemotePrivateAddr : String
  TimeoutNs : Nat
  RetryCount : Nat
  IsInitiator : Bool
  deriving Repr

/-- Outcomes of the external probes: `directOk n` is whether the `n`-th
direct-connection probe of the run received a reply, `simulOk` whether
the enhanced simultaneous connect did. -/
structure HolePunchEnv where
  directOk : Nat → Bool
  simulOk : Bool

/-- The effective read window of every `tryDirectConnection` probe: the
`SetReadDeadline(time.Now().Add(2 * time.Second))` issued after the
initial send. -/
def directReadWindowNs : Nat := 2000000000

/-- The event one `tryDirectConnection` call emits. -/
def tryDirectEvent (localAddr remoteAddr : String) (timeoutNs : Nat) : HPEvent :=
  .direct localAddr remoteAddr timeoutNs directReadWindowNs

/-- Value of the leading decimal run of a character list (0 when there
are no leading digits). -/
def digitsPrefixVal (cs : List Char) : Nat :=
  match digitsValAux 0 (cs.takeWhile fun c => decide ('0' ≤ c ∧ c ≤ '9')) with
  | some v => v
  | none => 0

/-- Model of `fmt.Sscanf(s, "%d", &n)` as `tryPortPrediction` uses it:
parse an optional sign and the leading digits, leaving 0 on failure. -/
def goSscanfInt (s : List Char) : Int :=
  match s with
  | '-' :: rest => -(digitsPrefixVal rest : Int)
  | '+' :: rest => (digitsPrefixVal rest : Int)
  | _ => (digitsPrefixVal s : Int)

/-- The `portRange` offsets of `tryPortPrediction`, in probe order. -/
def portRange : List Int := [0, 1, -1, 2, -2, 3, -3, 4, -4, 5, -5]

/-- `fmt.Sprintf("%s:%d", ip, port)`. -/
def mkAddr (ip : String) (port : Int) : String :=
  String.mk (ip.data ++ ':' :: intChars port)

/-- Strategy 3 of `performSynchronizedHolePunching`: up to `RetryCount`
probes of the remote STUN address with a 3 s overall deadline each,
sleeping `(attempt+1) * 500 ms` between consecutive attempts.  The
first component is the event list, then the successful 0-based attempt
(if any), then the advanced probe counter. -/
def stunRetryLoop (directOk : Nat → Bool) (cfg : HolePunchConfig) :
    Nat → Nat → Nat → List HPEvent × Option Nat × Nat
  | 0, _, counter => ([], none, counter)
  | remaining + 1, attempt, counter =>
    let ev := tryDirectEvent cfg.LocalSTUNAddr cfg.RemoteSTUNAddr 3000000000
    if directOk counter then ([ev], some attempt, counter + 1)
    else
      let sleeps : List HPEvent :=
        if attempt < cfg.RetryCount - 1 then [.sleepNs ((attempt + 1) * 500000000)]
        else []
      match stunRetryLoop directOk cfg remaining (attempt + 1) (counter + 1) with
      | (evs, res, c') => (ev :: sleeps ++ evs, res, c')

/-- The probe sequence of `tryPortPrediction`: for each offset in
`portRange`, skip targets outside `1..65535`, otherwise probe
`remoteIP:(basePort+offset)` with a 1 s overall deadline. -/
def predictionLoop (directOk : Nat → Bool) (localSTUN remoteIP : String) (basePort : Int) :
    List Int → Nat → List HPEvent × Option Int × Nat
  | [], counter => ([], none, counter)
  | off :: rest, counter =>
    let targetPort := basePort + off
    if targetPort ≤ 0 ∨ targetPort > 65535 then
      predictionLoop directOk localSTUN remoteIP basePort rest counter
    else
      let ev := tryDirectEvent localSTUN (mkAddr remoteIP targetPort) 1000000000
      if directOk counter then ([ev], some off, counter + 1)
      else
        match predictionLoop directOk localSTUN remoteIP basePort rest (counter + 1) with
        | (evs, res, c') => (ev :: evs, res, c')

/-- Embedding of `tryPortPrediction` (unnamed source part): fail
outright when no port can be extracted from the remote STUN address,
otherwise run the prediction probes. -/
def tryPortPrediction (directOk : Nat → Bool) (cfg : HolePunchConfig) (counter : Nat) :
    List HPEvent × Option Int × Nat :=
  if extractPort cfg.RemoteSTUNAddr = "" then ([], none, counter)
  else
    predictionLoop directOk cfg.LocalSTUNAddr (extractIP cfg.RemoteSTUNAddr)
      (goSscanfInt (extractPort cfg.RemoteSTUNAddr).data) portRange counter

/-- Embedding of `performSynchronizedHolePunching` (unnamed source
part): LAN direct (2 s, only when both private endpoints are known),
then the enhanced simultaneous connect, then up to `RetryCount` STUN
direct probes (3 s each, progressive sleeps), then port prediction (1 s
per probe); the first success wins and ends the run. -/
def performSynchronizedHolePunching (cfg : HolePunchConfig) (env : HolePunchEnv) :
    List HPEvent × Option HPStrategy :=
  let lan : List HPEvent × Option HPStrategy × Nat :=
    if cfg.LocalPrivateAddr ≠ "" ∧ cfg.RemotePrivateAddr ≠ "" then
      let ev := tryDirectEvent cfg.LocalPrivateAddr cfg.RemotePrivateAddr 2000000000
      if env.directOk 0 then ([ev], some .lanDirect, 1) else ([ev], none, 1)
    else ([], none, 0)
  match lan with
  | (evs1, some st, _) => (evs1, some st)
  | (evs1, none, c1) =>
    if env.simulOk then (evs1 ++ [.simultaneous], some .enhancedSimultaneous)
    else
      match stunRetryLoop env.directOk cfg cfg.RetryCount 0 c1 with
      | (evs3, some attempt, _) =>
        (evs1 ++ .simultaneous :: evs3, some (.stunDirect attempt))
      | (evs3, none, c3) =>
        match tryPortPrediction env.directOk cfg c3 with
        | (evs4, some off, _) =>
          (evs1 ++ .simultaneous :: evs3 ++ evs4, some (.portPrediction off))
        | (evs4, none, _) =>
          (evs1 ++ .simultaneous :: evs3 ++ evs4, none)

/-- The configuration `establishP2PConnection` (unnamed source part)
builds: 15 s overall timeout and 5 retries. -/
def establishP2PConfig (localSTUN remoteSTUN localPriv remotePriv : String)
    (isInitiator : Bool) : HolePunchConfig :=
  { LocalSTUNAddr := localSTUN, RemoteSTUNAddr := remoteSTUN,
    LocalPrivateAddr := localPriv, RemotePrivateAddr := remotePriv,
    TimeoutNs := 15000000000, RetryCount := 5, IsInitiator := isInitiator }


theorem stunRetryLoop_events (directOk : Nat → Bool) (cfg : HolePunchConfig) :
    ∀ (remaining attempt counter : Nat),
      ∀ ev ∈ (stunRetryLoop directOk cfg remaining attempt counter).1,
        ev = tryDirectEvent cfg.LocalSTUNAddr cfg.RemoteSTUNAddr 3000000000 ∨
        ∃ k, 1 ≤ k ∧ k ≤ cfg.RetryCount - 1 ∧ ev = HPEvent.sleepNs (k * 500000000) := by
  intro remaining
  induction remaining with
  | zero => intro attempt counter ev hev; simp [stunRetryLoop] at hev
  | succ rem ih =>
    intro attempt counter ev hev
    unfold stunRetryLoop at hev
    dsimp only at hev
    by_cases hd : directOk counter = true
    · rw [if_pos hd] at hev
      dsimp only at hev
      rw [List.mem_singleton] at hev
      exact Or.inl hev
    · rw [if_neg hd] at hev
      rcases hrec : stunRetryLoop directOk cfg rem (attempt + 1) (counter + 1) with ⟨evs, res, c⟩
      rw [hrec] at hev
      dsimp only at hev
      rw [List.mem_append, List.mem_cons] at hev
      rcases hev with (hev | hev) | hev
      · exact Or.inl hev
      · by_cases hlt : attempt < cfg.RetryCount - 1
        · rw [if_pos hlt] at hev
          rw [List.mem_singleton] at hev
          exact Or.inr ⟨attempt + 1, by omega, by omega, hev⟩
        · rw [if_neg hlt] at hev
          simp at hev
      · exact ih (attempt + 1) (counter + 1) ev (by rw [hrec]; exact hev)

theorem stunRetryLoop_result (directOk : Nat → Bool) (cfg : HolePunchConfig) :
    ∀ (remaining attempt counter a : Nat),
      (stunRetryLoop directOk cfg remaining attempt counter).2.1 = some a →
      attempt ≤ a ∧ a < attempt + remaining := by
  intro remaining
  induction remaining with
  | zero => intro attempt counter a h; simp [stunRetryLoop] at h
  | succ rem ih =>
    intro attempt counter a h
    unfold stunRetryLoop at h
    dsimp only at h
    by_cases hd : directOk counter = true
    · rw [if_pos hd] at h
      dsimp only at h
      injection h with h
      omega
    · rw [if_neg hd] at h
      rcases hrec : stunRetryLoop directOk cfg rem (attempt + 1) (counter + 1) with ⟨evs, res, c⟩
      rw [hrec] at h
      dsimp only at h
      have := ih (attempt + 1) (counter + 1) a (by rw [hrec]; exact h)
      omega

theorem predictionLoop_events (directOk : Nat → Bool) (localSTUN remoteIP : String)
    (basePort : Int) :
    ∀ (offs : List Int) (counter : Nat),
      ∀ ev ∈ (predictionLoop directOk localSTUN remoteIP basePort offs counter).1,
        ∃ off ∈ offs, 0 < basePort + off ∧ basePort + off ≤ 65535 ∧
          ev = tryDirectEvent localSTUN (mkAddr remoteIP (basePort + off)) 1000000000 := by
  intro offs
  induction offs with
  | nil => intro counter ev hev; simp [predictionLoop] at hev
  | cons o rest ih =>
    intro counter ev hev
    unfold predictionLoop at hev
    dsimp only at hev
    by_cases hrange : basePort + o ≤ 0 ∨ basePort + o > 65535
    · rw [if_pos hrange] at hev
      obtain ⟨w, hw, h1, h2, h3⟩ := ih counter ev hev
      exact ⟨w, List.mem_cons_of_mem _ hw, h1, h2, h3⟩
    · rw [if_neg hrange] at hev
      push_neg at hrange
      by_cases hd : directOk counter = true
      · rw [if_pos hd] at hev
        dsimp only at hev
        rw [List.mem_singleton] at hev
        exact ⟨o, List.mem_cons_self _ _, by omega, by omega, hev⟩
      · rw [if_neg hd] at hev
        rcases hrec : predictionLoop directOk localSTUN remoteIP basePort rest (counter + 1)
          with ⟨evs, res, c⟩
        rw [hrec] at hev
        dsimp only at hev
        rw [List.mem_cons] at hev
        rcases hev with hev | hev
        · exact ⟨o, List.mem_cons_self _ _, by omega, by omega, hev⟩
        · obtain ⟨w, hw, h1, h2, h3⟩ := ih (counter + 1) ev (by rw [hrec]; exact hev)
          exact ⟨w, List.mem_cons_of_mem _ hw, h1, h2, h3⟩

theorem predictionLoop_result (directOk : Nat → Bool) (localSTUN remoteIP : String)
    (basePort : Int) :
    ∀ (offs : List Int) (counter : Nat) (off : Int),
      (predictionLoop directOk localSTUN remoteIP basePort offs counter).2.1 = some off →
      off ∈ offs := by
  intro offs
  induction offs with
  | nil => intro counter off h; simp [predictionLoop] at h
  | cons o rest ih =>
    intro counter off h
    unfold predictionLoop at h
    dsimp only at h
    by_cases hrange : basePort + o ≤ 0 ∨ basePort + o > 65535
    · rw [if_pos hrange] at h
      exact List.mem_cons_of_mem _ (ih counter off h)
    · rw [if_neg hrange] at h
      by_cases hd : directOk counter = true
      · rw [if_pos hd] at h
        dsimp only at h
        injection h with h
        subst h
        exact List.mem_cons_self _ _
      · rw [if_neg hd] at h
        rcases hrec : predictionLoop directOk localSTUN remoteIP basePort rest (counter + 1)
          with ⟨evs, res, c⟩
        rw [hrec] at h
        dsimp only at h
        exact List.mem_cons_of_mem _ (ih (counter + 1) off (by rw [hrec]; exact h))

/-- What one event of a hole-punching run may look like: the LAN probe
(2 s), the simultaneous send, a STUN direct probe (3 s), a progressive
sleep (at most `(RetryCount-1) * 500 ms`), or a port-prediction probe
(1 s) of the remote STUN IP at an in-range offset port. -/
def hpEventSpec (cfg : HolePunchConfig) (ev : HPEvent) : Prop :=
  ev = tryDirectEvent cfg.LocalPrivateAddr cfg.RemotePrivateAddr 2000000000 ∨
  ev = HPEvent.simultaneous ∨
  ev = tryDirectEvent cfg.LocalSTUNAddr cfg.RemoteSTUNAddr 3000000000 ∨
  (∃ k, 1 ≤ k ∧ k ≤ cfg.RetryCount - 1 ∧ ev = HPEvent.sleepNs (k * 500000000)) ∨
  (∃ off ∈ portRange,
    0 < goSscanfInt (extractPort cfg.RemoteSTUNAddr).data + off ∧
    goSscanfInt (extractPort cfg.RemoteSTUNAddr).data + off ≤ 65535 ∧
    ev = tryDirectEvent cfg.LocalSTUNAddr
      (mkAddr (extractIP cfg.RemoteSTUNAddr)
        (goSscanfInt (extractPort cfg.RemoteSTUNAddr).data + off)) 1000000000)

theorem tryPortPrediction_events (directOk : Nat → Bool) (cfg : HolePunchConfig)
    (counter : Nat) :
    ∀ ev ∈ (tryPortPrediction directOk cfg counter).1,
      ∃ off ∈ portRange,
        0 < goSscanfInt (extractPort cfg.RemoteSTUNAddr).data + off ∧
        goSscanfInt (extractPort cfg.RemoteSTUNAddr).data + off ≤ 65535 ∧
        ev = tryDirectEvent cfg.LocalSTUNAddr
          (mkAddr (extractIP cfg.RemoteSTUNAddr)
            (goSscanfInt (extractPort cfg.RemoteSTUNAddr).data + off)) 1000000000 := by
  intro ev hev
  unfold tryPortPrediction at hev
  split at hev
  · simp at hev
  · exact predictionLoop_events directOk cfg.LocalSTUNAddr (extractIP cfg.RemoteSTUNAddr)
      (goSscanfInt (extractPort cfg.RemoteSTUNAddr).data) portRange counter ev hev

theorem tryPortPrediction_result (directOk : Nat → Bool) (cfg : HolePunchConfig)
    (counter : Nat) (off : Int) :
    (tryPortPrediction directOk cfg counter).2.1 = some off → off ∈ portRange := by
  intro h
  unfold tryPortPrediction at h
  split at h
  · simp at h
  · exact predictionLoop_result directOk cfg.LocalSTUNAddr (extractIP cfg.RemoteSTUNAddr)
      (goSscanfInt (extractPort cfg.RemoteSTUNAddr).data) portRange counter off h

theorem performSync_chain_events (cfg : HolePunchConfig) (env : HolePunchEnv)
    (evs1 : List HPEvent) (c1 : Nat)
    (h1 : ∀ e ∈ evs1, e = tryDirectEvent cfg.LocalPrivateAddr cfg.RemotePrivateAddr 2000000000) :
    ∀ ev ∈ (if env.simulOk = true then
        (evs1 ++ [HPEvent.simultaneous], some HPStrategy.enhancedSimultaneous)
      else
        match stunRetryLoop env.directOk cfg cfg.RetryCount 0 c1 with
        | (evs3, some attempt, _) =>
          (evs1 ++ HPEvent.simultaneous :: evs3, some (HPStrategy.stunDirect attempt))
        | (evs3, none, c3) =>
          match tryPortPrediction env.directOk cfg c3 with
          | (evs4, some off, _) =>
            (evs1 ++ HPEvent.simultaneous :: evs3 ++ evs4, some (HPStrategy.portPrediction off))
          | (evs4, none, _) =>
            (evs1 ++ HPEvent.simultaneous :: evs3 ++ evs4, none) :
        List HPEvent × Option HPStrategy).1,
      hpEventSpec cfg ev := by
  intro ev hev
  unfold hpEventSpec
  by_cases hs : env.simulOk = true
  · rw [if_pos hs] at hev
    dsimp only at hev
    rw [List.mem_append, List.mem_singleton] at hev
    rcases hev with hev | hev
    · exact Or.inl (h1 ev hev)
    · exact Or.inr (Or.inl hev)
  · rw [if_neg hs] at hev
    rcases h3 : stunRetryLoop env.directOk cfg cfg.RetryCount 0 c1 with ⟨evs3, res3, c3⟩
    rw [h3] at hev
    cases res3 with
    | some attempt =>
      dsimp only at hev
      rw [List.mem_append, List.mem_cons] at hev
      rcases hev with hev | hev | hev
      · exact Or.inl (h1 ev hev)
      · exact Or.inr (Or.inl hev)
      · rcases stunRetryLoop_events env.directOk cfg cfg.RetryCount 0 c1 ev
            (by rw [h3]; exact hev) with h | h
        · exact Or.inr (Or.inr (Or.inl h))
        · exact Or.inr (Or.inr (Or.inr (Or.inl h)))
    | none =>
      dsimp only at hev
      rcases h4 : tryPortPrediction env.directOk cfg c3 with ⟨evs4, res4, c4⟩
      rw [h4] at hev
      have hmem : ev ∈ evs1 ++ HPEvent.simultaneous :: evs3 ++ evs4 → hpEventSpec cfg ev := by
        intro hm
        rw [List.mem_append, List.mem_append, List.mem_cons] at hm
        unfold hpEventSpec
        rcases hm with (hm | hm | hm) | hm
        · exact Or.inl (h1 ev hm)
        · exact Or.inr (Or.inl hm)
        · rcases stunRetryLoop_events env.directOk cfg cfg.RetryCount 0 c1 ev
              (by rw [h3]; exact hm) with h | h
          · exact Or.inr (Or.inr (Or.inl h))
          · exact Or.inr (Or.inr (Or.inr (Or.inl h)))
        · exact Or.inr (Or.inr (Or.inr (Or.inr
            (tryPortPrediction_events env.directOk cfg c3 ev (by rw [h4]; exact hm)))))
      cases res4 with
      | some off => exact hmem hev
      | none => exact hmem hev

/-- Every event of a hole-punching run is one of the shapes listed by
`hpEventSpec`. -/
theorem performSync_events (cfg : HolePunchConfig) (env : HolePunchEnv) :
    ∀ ev ∈ (performSynchronizedHolePunching cfg env).1, hpEventSpec cfg ev := by
  intro ev hev
  unfold performSynchronizedHolePunching at hev
  dsimp only at hev
  by_cases hpriv : cfg.LocalPrivateAddr ≠ "" ∧ cfg.RemotePrivateAddr ≠ ""
  · rw [if_pos hpriv] at hev
    by_cases hd0 : env.directOk 0 = true
    · rw [if_pos hd0] at hev
      dsimp only at hev
      rw [List.mem_singleton] at hev
      exact Or.inl hev
    · rw [if_neg hd0] at hev
      dsimp only at hev
      exact performSync_chain_events cfg env
        [tryDirectEvent cfg.LocalPrivateAddr cfg.RemotePrivateAddr 2000000000] 1
        (by intro e he; rw [List.mem_singleton] at he; exact he) ev hev
  · rw [if_neg hpriv] at hev
    dsimp only at hev
    exact performSync_chain_events cfg env [] 0 (by intro e he; simp at he) ev hev

theorem performSync_chain_result (cfg : HolePunchConfig) (env : HolePunchEnv)
    (evs1 : List HPEvent) (c1 : Nat) :
    ∀ r, (if env.simulOk = true then
        (evs1 ++ [HPEvent.simultaneous], some HPStrategy.enhancedSimultaneous)
      else
        match stunRetryLoop env.directOk cfg cfg.RetryCount 0 c1 with
        | (evs3, some attempt, _) =>
          (evs1 ++ HPEvent.simultaneous :: evs3, some (HPStrategy.stunDirect attempt))
        | (evs3, none, c3) =>
          match tryPortPrediction env.directOk cfg c3 with
          | (evs4, some off, _) =>
            (evs1 ++ HPEvent.simultaneous :: evs3 ++ evs4, some (HPStrategy.portPrediction off))
          | (evs4, none, _) =>
            (evs1 ++ HPEvent.simultaneous :: evs3 ++ evs4, none) :
        List HPEvent × Option HPStrategy).2 = some r →
      (r = HPStrategy.lanDirect → False) ∧
      (r = HPStrategy.enhancedSimultaneous → env.simulOk = true) ∧
      (∀ a, r = HPStrategy.stunDirect a → env.simulOk = false ∧ a < cfg.RetryCount) ∧
      (∀ off, r = HPStrategy.portPrediction off → env.simulOk = false ∧ off ∈ portRange ∧
        (stunRetryLoop env.directOk cfg cfg.RetryCount 0 c1).2.1 = none) := by
  intro r h
  by_cases hs : env.simulOk = true
  · rw [if_pos hs] at h
    dsimp only at h
    injection h with h
    subst h
    exact ⟨fun hr => HPStrategy.noConfusion hr, fun _ => hs,
      fun a hr => HPStrategy.noConfusion hr, fun off hr => HPStrategy.noConfusion hr⟩
  · rw [if_neg hs] at h
    have hsF : env.simulOk = false := by
      cases hsv : env.simulOk
      · rfl
      · exact absurd hsv hs
    rcases h3 : stunRetryLoop env.directOk cfg cfg.RetryCount 0 c1 with ⟨evs3, res3, c3⟩
    rw [h3] at h
    cases res3 with
    | some attempt =>
      dsimp only at h
      injection h with h
      subst h
      refine ⟨fun hr => HPStrategy.noConfusion hr, fun hr => HPStrategy.noConfusion hr,
        fun a hr => ?_, fun off hr => HPStrategy.noConfusion hr⟩
      have ha : attempt = a := by injection hr
      have hb := stunRetryLoop_result env.directOk cfg cfg.RetryCount 0 c1 a
        (by rw [h3]; exact congrArg some ha)
      exact ⟨hsF, by omega⟩
    | none =>
      dsimp only at h
      rcases h4 : tryPortPrediction env.directOk cfg c3 with ⟨evs4, res4, c4⟩
      rw [h4] at h
      cases res4 with
      | some o =>
        dsimp only at h
        injection h with h
        subst h
        refine ⟨fun hr => HPStrategy.noConfusion hr, fun hr => HPStrategy.noConfusion hr,
          fun a hr => HPStrategy.noConfusion hr, fun off hr => ?_⟩
        have ho : o = off := by injection hr
        refine ⟨hsF, ?_, rfl⟩
        exact tryPortPrediction_result env.directOk cfg c3 off
          (by rw [h4]; exact congrArg some ho)
      | none =>
        dsimp only at h
        simp at h

theorem performSync_result (cfg : HolePunchConfig) (env : HolePunchEnv) :
    ∀ r, (performSynchronizedHolePunching cfg env).2 = some r →
      (r = HPStrategy.lanDirect →
        (cfg.LocalPrivateAddr ≠ "" ∧ cfg.RemotePrivateAddr ≠ "") ∧ env.directOk 0 = true) ∧
      (r = HPStrategy.enhancedSimultaneous → env.simulOk = true) ∧
      (∀ a, r = HPStrategy.stunDirect a → env.simulOk = false ∧ a < cfg.RetryCount ∧
        (cfg.LocalPrivateAddr ≠ "" ∧ cfg.RemotePrivateAddr ≠ "" →
          env.directOk 0 = false)) ∧
      (∀ off, r = HPStrategy.portPrediction off → env.simulOk = false ∧ off ∈ portRange ∧
        (stunRetryLoop env.directOk cfg cfg.RetryCount 0
          (if cfg.LocalPrivateAddr ≠ "" ∧ cfg.RemotePrivateAddr ≠ "" then 1 else 0)).2.1 =
            none ∧
        (cfg.LocalPrivateAddr ≠ "" ∧ cfg.RemotePrivateAddr ≠ "" →
          env.directOk 0 = false)) := by
  intro r h
  unfold performSynchronizedHolePunching at h
  dsimp only at h
  by_cases hpriv : cfg.LocalPrivateAddr ≠ "" ∧ cfg.RemotePrivateAddr ≠ ""
  · rw [if_pos hpriv] at h
    rw [if_pos hpriv]
    by_cases hd0 : env.directOk 0 = true
    · rw [if_pos hd0] at h
      dsimp only at h
      injection h with h
      subst h
      exact ⟨fun _ => ⟨hpriv, hd0⟩, fun hr => HPStrategy.noConfusion hr,
        fun a hr => HPStrategy.noConfusion hr, fun off hr => HPStrategy.noConfusion hr⟩
    · rw [if_neg hd0] at h
      dsimp only at h
      have hd0F : env.directOk 0 = false := by
        cases hv : env.directOk 0
        · rfl
        · exact absurd hv hd0
      have hc := performSync_chain_result cfg env
        [tryDirectEvent cfg.LocalPrivateAddr cfg.RemotePrivateAddr 2000000000] 1 r h
      refine ⟨fun hr => absurd hr ?_, hc.2.1, fun a hr => ?_, fun off hr => ?_⟩
      · intro hr
        exact hc.1 hr
      · obtain ⟨h1, h2⟩ := hc.2.2.1 a hr
        exact ⟨h1, h2, fun _ => hd0F⟩
      · obtain ⟨h1, h2, h3⟩ := hc.2.2.2 off hr
        exact ⟨h1, h2, h3, fun _ => hd0F⟩
  · rw [if_neg hpriv] at h
    rw [if_neg hpriv]
    dsimp only at h
    have hc := performSync_chain_result cfg env [] 0 r h
    refine ⟨fun hr => absurd hr ?_, hc.2.1, fun a hr => ?_, fun off hr => ?_⟩
    · intro hr
      exact hc.1 hr
    · obtain ⟨h1, h2⟩ := hc.2.2.1 a hr
      exact ⟨h1, h2, fun hp => absurd hp hpriv⟩
    · obtain ⟨h1, h2, h3⟩ := hc.2.2.2 off hr
      exact ⟨h1, h2, h3, fun hp => absurd hp hpriv⟩

theorem performSync_lan (cfg : HolePunchConfig) (env : HolePunchEnv)
    (hpriv : cfg.LocalPrivateAddr ≠ "" ∧ cfg.RemotePrivateAddr ≠ "")
    (hd0 : env.directOk 0 = true) :
    performSynchronizedHolePunching cfg env =
      ([tryDirectEvent cfg.LocalPrivateAddr cfg.RemotePrivateAddr 2000000000],
        some HPStrategy.lanDirect) := by
  unfold performSynchronizedHolePunching
  dsimp only
  rw [if_pos hpriv, if_pos hd0]

theorem performSync_head (cfg : HolePunchConfig) (env : HolePunchEnv) :
    (performSynchronizedHolePunching cfg env).1.head? =
      if cfg.LocalPrivateAddr ≠ "" ∧ cfg.RemotePrivateAddr ≠ "" then
        some (tryDirectEvent cfg.LocalPrivateAddr cfg.RemotePrivateAddr 2000000000)
      else some HPEvent.simultaneous := by
  unfold performSynchronizedHolePunching
  dsimp only
  by_cases hpriv : cfg.LocalPrivateAddr ≠ "" ∧ cfg.RemotePrivateAddr ≠ ""
  · rw [if_pos hpriv, if_pos hpriv]
    by_cases hd0 : env.directOk 0 = true
    · rw [if_pos hd0]
      rfl
    · rw [if_neg hd0]
      dsimp only
      by_cases hs : env.simulOk = true
      · rw [if_pos hs]
        rfl
      · rw [if_neg hs]
        rcases h3 : stunRetryLoop env.directOk cfg cfg.RetryCount 0 1 with ⟨evs3, res3, c3⟩
        cases res3 with
        | some attempt => rfl
        | none =>
          dsimp only
          rcases h4 : tryPortPrediction env.directOk cfg c3 with ⟨evs4, res4, c4⟩
          cases res4 <;> rfl
  · rw [if_neg hpriv, if_neg hpriv]
    dsimp only
    by_cases hs : env.simulOk = true
    · rw [if_pos hs]
      rfl
    · rw [if_neg hs]
      rcases h3 : stunRetryLoop env.directOk cfg cfg.RetryCount 0 0 with ⟨evs3, res3, c3⟩
      cases res3 with
      | some attempt => rfl
      | none =>
        dsimp only
        rcases h4 : tryPortPrediction env.directOk cfg c3 with ⟨evs4, res4, c4⟩
        cases res4 <;> rfl

/-- **C4** (amended). Hole-punch strategies run in the fixed order LAN
direct → enhanced simultaneous → STUN direct → port prediction, each
only after all earlier ones failed, first success wins: (1) when both
private endpoints are known and the LAN probe succeeds, the run is
exactly that one 2 s probe with result `lanDirect`; (2) the first event
is the LAN probe when both private endpoints are known and the
simultaneous send otherwise; (3) each possible result certifies the
failure of every earlier strategy, STUN direct succeeds within
`RetryCount` (= 5) attempts, and port prediction succeeds at an offset
in {0, ±1, ±2, ±3, ±4, ±5}; (4) **correction** — every direct probe's
effective read window is 2 s (`SetReadDeadline(now+2s)` issued after
the send overrides the probe's overall deadline), so the claimed 3 s
(STUN direct) and 1 s (port prediction) windows bound only connection
setup, the overall per-probe deadlines being 2 s / 3 s / 1 s; (5) the
sleeps between STUN attempts are `k × 500 ms` with `1 ≤ k ≤
RetryCount - 1`; (6) prediction probes go from the local STUN socket
to the remote STUN IP at base-port+offset, skipping targets outside
1..65535; (7) `establishP2PConnection` configures a 15 s overall
timeout and 5 retries. -/
theorem C4_hole_punch_strategy_order :
    (∀ (cfg : HolePunchConfig) (env : HolePunchEnv),
        cfg.LocalPrivateAddr ≠ "" ∧ cfg.RemotePrivateAddr ≠ "" →
        env.directOk 0 = true →
        performSynchronizedHolePunching cfg env =
          ([tryDirectEvent cfg.LocalPrivateAddr cfg.RemotePrivateAddr 2000000000],
            some HPStrategy.lanDirect)) ∧
    (∀ (cfg : HolePunchConfig) (env : HolePunchEnv),
        (performSynchronizedHolePunching cfg env).1.head? =
          if cfg.LocalPrivateAddr ≠ "" ∧ cfg.RemotePrivateAddr ≠ "" then
            some (tryDirectEvent cfg.LocalPrivateAddr cfg.RemotePrivateAddr 2000000000)
          else some HPEvent.simultaneous) ∧
    (∀ (cfg : HolePunchConfig) (env : HolePunchEnv) (r : HPStrategy),
        (performSynchronizedHolePunching cfg env).2 = some r →
          (r = HPStrategy.lanDirect →
            (cfg.LocalPrivateAddr ≠ "" ∧ cfg.RemotePrivateAddr ≠ "") ∧
              env.directOk 0 = true) ∧
          (r = HPStrategy.enhancedSimultaneous → env.simulOk = true) ∧
          (∀ a, r = HPStrategy.stunDirect a →
            env.simulOk = false ∧ a < cfg.RetryCount ∧
            (cfg.LocalPrivateAddr ≠ "" ∧ cfg.RemotePrivateAddr ≠ "" →
              env.directOk 0 = false)) ∧
          (∀ off, r = HPStrategy.portPrediction off →
            env.simulOk = false ∧ off ∈ portRange ∧
            (stunRetryLoop env.directOk cfg cfg.RetryCount 0
              (if cfg.LocalPrivateAddr ≠ "" ∧ cfg.RemotePrivateAddr ≠ "" then 1
                else 0)).2.1 = none ∧
            (cfg.LocalPrivateAddr ≠ "" ∧ cfg.RemotePrivateAddr ≠ "" →
              env.directOk 0 = false))) ∧
    (∀ (cfg : HolePunchConfig) (env : HolePunchEnv) (l r : String) (t w : Nat),
        HPEvent.direct l r t w ∈ (performSynchronizedHolePunching cfg env).1 →
          w = directReadWindowNs ∧
            (t = 2000000000 ∨ t = 3000000000 ∨ t = 1000000000)) ∧
    (∀ (cfg : HolePunchConfig) (env : HolePunchEnv) (d : Nat),
        HPEvent.sleepNs d ∈ (performSynchronizedHolePunching cfg env).1 →
          ∃ k, 1 ≤ k ∧ k ≤ cfg.RetryCount - 1 ∧ d = k * 500000000) ∧
    (∀ (cfg : HolePunchConfig) (env : HolePunchEnv) (l r : String) (w : Nat),
        HPEvent.direct l r 1000000000 w ∈ (performSynchronizedHolePunching cfg env).1 →
          l = cfg.LocalSTUNAddr ∧
          ∃ off ∈ portRange,
            0 < goSscanfInt (extractPort cfg.RemoteSTUNAddr).data + off ∧
            goSscanfInt (extractPort cfg.RemoteSTUNAddr).data + off ≤ 65535 ∧
            r = mkAddr (extractIP cfg.RemoteSTUNAddr)
              (goSscanfInt (extractPort cfg.RemoteSTUNAddr).data + off)) ∧
    (∀ (ls rs lp rp : String) (b : Bool),
        (establishP2PConfig ls rs lp rp b).RetryCount = 5 ∧
        (establishP2PConfig ls rs lp rp b).TimeoutNs = 15000000000) := by
  refine ⟨fun cfg env hpriv hd0 => performSync_lan cfg env hpriv hd0,
    fun cfg env => performSync_head cfg env,
    fun cfg env r h => performSync_result cfg env r h,
    fun cfg env l r t w hmem => ?_, fun cfg env d hmem => ?_,
    fun cfg env l r w hmem => ?_, fun ls rs lp rp b => ⟨rfl, rfl⟩⟩
  · have hs := performSync_events cfg env _ hmem
    unfold hpEventSpec at hs
    rcases hs with h | h | h | ⟨k, hk1, hk2, h⟩ | ⟨off, hoff, h1, h2, h⟩
    · unfold tryDirectEvent at h
      injection h with e1 e2 e3 e4
      exact ⟨e4, Or.inl e3⟩
    · exact HPEvent.noConfusion h
    · unfold tryDirectEvent at h
      injection h with e1 e2 e3 e4
      exact ⟨e4, Or.inr (Or.inl e3)⟩
    · exact HPEvent.noConfusion h
    · unfold tryDirectEvent at h
      injection h with e1 e2 e3 e4
      exact ⟨e4, Or.inr (Or.inr e3)⟩
  · have hs := performSync_events cfg env _ hmem
    unfold hpEventSpec at hs
    rcases hs with h | h | h | ⟨k, hk1, hk2, h⟩ | ⟨off, hoff, h1, h2, h⟩
    · unfold tryDirectEvent at h
      exact HPEvent.noConfusion h
    · exact HPEvent.noConfusion h
    · unfold tryDirectEvent at h
      exact HPEvent.noConfusion h
    · injection h with h
      exact ⟨k, hk1, hk2, h⟩
    · unfold tryDirectEvent at h
      exact HPEvent.noConfusion h
  · have hs := performSync_events cfg env _ hmem
    unfold hpEventSpec at hs
    rcases hs with h | h | h | ⟨k, hk1, hk2, h⟩ | ⟨off, hoff, h1, h2, h⟩
    · unfold tryDirectEvent at h
      injection h with e1 e2 e3 e4
      exact absurd e3 (by decide)
    · exact HPEvent.noConfusion h
    · unfold tryDirectEvent at h
      injection h with e1 e2 e3 e4
      exact absurd e3 (by decide)
    · exact HPEvent.noConfusion h
    · unfold tryDirectEvent at h
      injection h with e1 e2 e3 e4
      exact ⟨e1, off, hoff, h1, h2, e2⟩

/-- The claim's 3 s read window for STUN-direct probes is false in the
code: `tryDirectConnection` issues `SetReadDeadline(now + 2s)` after
sending, so a probe whose overall deadline is 3 s reads under a 2 s
window.  Concrete run with no private endpoints, failing simultaneous
send and failing probes: the trace contains a STUN probe with overall
deadline 3 s and read window 2 s. -/
theorem C4_hole_punch_strategy_order_counterexample :
    HPEvent.direct "1.2.3.4:100" "5.6.7.8:200" 3000000000 2000000000 ∈
        (performSynchronizedHolePunching
          (establishP2PConfig "1.2.3.4:100" "5.6.7.8:200" "" "" true)
          { directOk := fun _ => false, simulOk := false }).1 ∧
      (2000000000 : Nat) ≠ 3000000000 :=
  ⟨by decide, by decide⟩

/-- Witness instantiating `C4_hole_punch_strategy_order`: a concrete
configuration with both private endpoints known and a succeeding LAN
probe produces exactly the single 2 s LAN probe and `lanDirect`. -/
theorem C4_hole_punch_strategy_order_witness :
    performSynchronizedHolePunching
        (establishP2PConfig "9.9.9.9:700" "8.8.8.8:600" "192.168.1.2:40000"
          "192.168.1.3:40001" true)
        { directOk := fun _ => true, simulOk := false } =
      ([tryDirectEvent "192.168.1.2:40000" "192.168.1.3:40001" 2000000000],
        some HPStrategy.lanDirect) :=
  C4_hole_punch_strategy_order.1
    (establishP2PConfig "9.9.9.9:700" "8.8.8.8:600" "192.168.1.2:40000"
      "192.168.1.3:40001" true)
    { directOk := fun _ => true, simulOk := false }
    (by decide) rfl
